import Mathlib

/-!
# kyanos agent: event decoding, sharding and start-up parameters

A shallow embedding of `agent/agent.go` and of the generated record layouts of
`bpf/openssl111j_x86_bpfel.go`.

Conventions of the embedding

* a Go `[]byte` is a `List Byte` with `Byte = Fin 256`;
* Go's unsigned integers are `Nat` below `2^w`, signed ones are `Int`;
  `int` is the 64 bit `int` of amd64;
* `binary.Read(bytes.NewBuffer(b), binary.LittleEndian, &v)` is `binaryRead`:
  `io.ReadFull` of `dataSize(v)` bytes followed by the field-by-field decoder;
* a handler run is a `Run`: how the call ended (`nil`, an error, a run-time
  panic) and the trace of calls it made on the processor manager and the hook.
-/

set_option maxRecDepth 10000

namespace Kyanos

/-! ## Bytes and Go integers -/

/-- A Go `byte`. -/
abbrev Byte := Fin 256

/-- Value of `buf[i]` (indices are in range wherever the decoder uses it). -/
def byteAt (buf : List Byte) (i : Nat) : Nat := (buf.getD i 0).val

/-- Little-endian unsigned value of `buf[off : off+n]`, as
`binary.LittleEndian.Uint16/32/64` compute it. -/
def leUint (buf : List Byte) (off : Nat) : Nat → Nat
  | 0 => 0
  | n + 1 => byteAt buf off + 256 * leUint buf (off + 1) n

/-- Conversion of an unsigned `w`-bit pattern to the signed Go integer of
the same width (`int8(x)`, `int32(x)`, `int(x)` for `w = 8, 32, 64`). -/
def toSigned (w : Nat) (x : Nat) : Int :=
  if x % 2 ^ w < 2 ^ (w - 1) then ((x % 2 ^ w : Nat) : Int) else ((x % 2 ^ w : Nat) : Int) - 2 ^ w

/-- Conversion of a Go signed integer to the unsigned type of `w` bits
(`uint64(x)`, `uint16(x)`): the value modulo `2^w`. -/
def toUnsigned (w : Nat) (x : Int) : Nat := (x % 2 ^ w).toNat

/-- Go's `int(x)` of a `uint64` on amd64. -/
def goInt (x : Nat) : Int := toSigned 64 x

/-- Go's `a % b` on `int`: remainder truncated toward zero, a run-time panic
(`none`) when the divisor is zero. -/
def goRem (a b : Int) : Option Int :=
  if b = 0 then none else some (Int.tmod a b)

/-! ## `encoding/binary` -/

/-- Errors of `io.ReadFull`. -/
inductive IoError
  | EOF
  | ErrUnexpectedEOF
deriving DecidableEq, Repr

deriving instance DecidableEq for Except

/-- The decoder of `encoding/binary`: a function of the buffer and the current
offset giving the decoded value and the next offset. -/
abbrev Dec (α : Type) := List Byte → StateM Nat α

def Dec.uint8 : Dec Nat := fun buf off => (leUint buf off 1, off + 1)
def Dec.int8 : Dec Int := fun buf off => (toSigned 8 (leUint buf off 1), off + 1)
def Dec.bool : Dec Bool := fun buf off => (decide (byteAt buf off ≠ 0), off + 1)
def Dec.uint16 : Dec Nat := fun buf off => (leUint buf off 2, off + 2)
def Dec.uint32 : Dec Nat := fun buf off => (leUint buf off 4, off + 4)
def Dec.int32 : Dec Int := fun buf off => (toSigned 32 (leUint buf off 4), off + 4)
def Dec.uint64 : Dec Nat := fun buf off => (leUint buf off 8, off + 8)

/-- A blank field `_ [n]byte`: `d.skip`. -/
def Dec.skip (n : Nat) : Dec Unit := fun _ off => ((), off + n)

/-- An array `[n]T`: `n` elements in order. -/
def Dec.array {α : Type} (d : Dec α) : Nat → Dec (List α)
  | 0 => fun _ off => ([], off)
  | n + 1 => fun buf off =>
    let (x, off1) := d buf off
    let (xs, off2) := Dec.array d n buf off1
    (x :: xs, off2)

/-- The call `binary.Read(bytes.NewBuffer(r), binary.LittleEndian, &v)` for a
value of `size = dataSize(v)` bytes: `io.ReadFull` fills a buffer of `size`
bytes or fails (`io.EOF` when nothing could be read, `io.ErrUnexpectedEOF`
when the reader ran dry part-way), then the decoder runs on that buffer. -/
def binaryRead {α : Type} (size : Nat) (d : Dec α) (r : List Byte) : Except IoError α :=
  if size = 0 then .ok (d [] 0).1
  else if r.length = 0 then .error .EOF
  else if r.length < size then .error .ErrUnexpectedEOF
  else .ok (d (r.take size) 0).1

/-! ## Record layouts (`bpf/openssl111j_x86_bpfel.go`) -/

structure Openssl111jConnIdS_t where
  TgidFd : Nat
  NoTrace : Bool
deriving DecidableEq, Repr

structure Openssl111jKernEvt where
  FuncName : List Int
  Ts : Nat
  Seq : Nat
  Len : Nat
  Flags : Nat
  ConnIdS : Openssl111jConnIdS_t
  IsSample : Int
  Step : Nat
deriving DecidableEq, Repr

/-- Field-by-field decoder of `Openssl111jConnIdS_t`. -/
def decConnIdS : Dec Openssl111jConnIdS_t := fun buf => do
  let tgidFd ← Dec.uint64 buf
  let noTrace ← Dec.bool buf
  Dec.skip 7 buf
  pure { TgidFd := tgidFd, NoTrace := noTrace }

/-- The value `dataSize` gives for `Openssl111jConnIdS_t`: the sum of the field sizes. -/
def sizeofConnIdS : Nat := 8 + 1 + 7

/-- Field-by-field decoder of `Openssl111jKernEvt`. -/
def decKernEvt : Dec Openssl111jKernEvt := fun buf => do
  let funcName ← Dec.array Dec.int8 16 buf
  let ts ← Dec.uint64 buf
  let seq ← Dec.uint64 buf
  let len ← Dec.uint32 buf
  let flags ← Dec.uint8 buf
  Dec.skip 3 buf
  let connIdS ← decConnIdS buf
  let isSample ← Dec.int32 buf
  let step ← Dec.uint32 buf
  pure { FuncName := funcName, Ts := ts, Seq := seq, Len := len, Flags := flags,
         ConnIdS := connIdS, IsSample := isSample, Step := step }

/-- The value `dataSize` gives for `Openssl111jKernEvt`. -/
def sizeofKernEvt : Nat := 16 * 1 + 8 + 8 + 4 + 1 + 3 + sizeofConnIdS + 4 + 4

/-- Modelled from the spec: the declaration of `bpf.AgentKernEvt`, the type
`handleKernEvt` decodes into, is not among the sources. Section 6 of the spec
gives the KernEvt header as `func_name[16]`, `timestamp u64`, `seq u64`,
`length u32`, `flags u8`, padding, `conn_id_s {tgid_fd u64, no_trace bool}`,
`is_sample i32`, `step u32`: the fields of `Openssl111jKernEvt`, which bpf2go
generates from the same C struct. -/
abbrev AgentKernEvt := Openssl111jKernEvt

structure UpidT where
  Pid : Nat
  StartTimeTicks : Nat
deriving DecidableEq, Repr

structure ConnIdT where
  Upid : UpidT
  Fd : Int
  Tsid : Nat
deriving DecidableEq, Repr

structure In6UT where
  U6Addr8 : List Nat
deriving DecidableEq, Repr

structure Sin6AddrT where
  In6U : In6UT
deriving DecidableEq, Repr

structure In6T where
  Sin6Family : Nat
  Sin6Port : Nat
  Sin6Flowinfo : Nat
  Sin6Addr : Sin6AddrT
  Sin6ScopeId : Nat
deriving DecidableEq, Repr

structure SockAddrT where
  In6 : In6T
deriving DecidableEq, Repr

structure Openssl111jConnInfoT where
  ConnId : ConnIdT
  ReadBytes : Nat
  WriteBytes : Nat
  SslReadBytes : Nat
  SslWriteBytes : Nat
  Laddr : SockAddrT
  Raddr : SockAddrT
  Protocol : Nat
  Role : Nat
  PrevCount : Nat
  PrevBuf : List Int
  PrependLengthHeader : Bool
  NoTrace : Bool
  Ssl : Bool
deriving DecidableEq, Repr

structure Openssl111jConnEvtT where
  ConnInfo : Openssl111jConnInfoT
  ConnType : Nat
  Ts : Nat
deriving DecidableEq, Repr

/-- Decoder of the anonymous struct `ConnId.Upid`. -/
def decUpid : Dec UpidT := fun buf => do
  let pid ← Dec.uint32 buf
  Dec.skip 4 buf
  let startTimeTicks ← Dec.uint64 buf
  pure { Pid := pid, StartTimeTicks := startTimeTicks }

def sizeofUpid : Nat := 4 + 4 + 8

/-- Decoder of the anonymous struct `ConnId`. -/
def decConnId : Dec ConnIdT := fun buf => do
  let upid ← decUpid buf
  let fd ← Dec.int32 buf
  Dec.skip 4 buf
  let tsid ← Dec.uint64 buf
  pure { Upid := upid, Fd := fd, Tsid := tsid }

def sizeofConnId : Nat := sizeofUpid + 4 + 4 + 8

/-- Decoder of the anonymous struct of `Laddr` and `Raddr`. -/
def decSockAddr : Dec SockAddrT := fun buf => do
  let family ← Dec.uint16 buf
  let port ← Dec.uint16 buf
  let flowinfo ← Dec.uint32 buf
  let addr8 ← Dec.array Dec.uint8 16 buf
  let scopeId ← Dec.uint32 buf
  pure { In6 := { Sin6Family := family, Sin6Port := port, Sin6Flowinfo := flowinfo,
                  Sin6Addr := { In6U := { U6Addr8 := addr8 } }, Sin6ScopeId := scopeId } }

def sizeofSockAddr : Nat := 2 + 2 + 4 + 16 * 1 + 4

/-- Field-by-field decoder of `Openssl111jConnInfoT`. -/
def decConnInfo : Dec Openssl111jConnInfoT := fun buf => do
  let connId ← decConnId buf
  let readBytes ← Dec.uint64 buf
  let writeBytes ← Dec.uint64 buf
  let sslReadBytes ← Dec.uint64 buf
  let sslWriteBytes ← Dec.uint64 buf
  let laddr ← decSockAddr buf
  let raddr ← decSockAddr buf
  let protocol ← Dec.uint32 buf
  let role ← Dec.uint32 buf
  let prevCount ← Dec.uint64 buf
  let prevBuf ← Dec.array Dec.int8 4 buf
  let prependLengthHeader ← Dec.bool buf
  let noTrace ← Dec.bool buf
  let ssl ← Dec.bool buf
  Dec.skip 1 buf
  pure { ConnId := connId, ReadBytes := readBytes, WriteBytes := writeBytes,
         SslReadBytes := sslReadBytes, SslWriteBytes := sslWriteBytes, Laddr := laddr,
         Raddr := raddr, Protocol := protocol, Role := role, PrevCount := prevCount,
         PrevBuf := prevBuf, PrependLengthHeader := prependLengthHeader, NoTrace := noTrace,
         Ssl := ssl }

def sizeofConnInfo : Nat :=
  sizeofConnId + 8 + 8 + 8 + 8 + sizeofSockAddr + sizeofSockAddr + 4 + 4 + 8 + 4 * 1 + 1 + 1 + 1 + 1

/-- Field-by-field decoder of `Openssl111jConnEvtT`. -/
def decConnEvt : Dec Openssl111jConnEvtT := fun buf => do
  let connInfo ← decConnInfo buf
  let connType ← Dec.uint32 buf
  Dec.skip 4 buf
  let ts ← Dec.uint64 buf
  pure { ConnInfo := connInfo, ConnType := connType, Ts := ts }

def sizeofConnEvt : Nat := sizeofConnInfo + 4 + 4 + 8

/-- Modelled from the spec: the declaration of `bpf.AgentConnEvtT`, the type
`handleConnEvt` decodes into, is not among the sources. Section 6 of the spec
gives ConnEvt as `ConnInfo`, `conn_type u32`, `timestamp u64` with the
ConnInfo fields of `Openssl111jConnInfoT`: the layout of
`Openssl111jConnEvtT`, which bpf2go generates from the same C struct. -/
abbrev AgentConnEvtT := Openssl111jConnEvtT

/-- Modelled from the spec: the declaration of `bpf.SyscallEvent`, the header
part of `bpf.SyscallEventData`, is not among the sources. Section 6 of the
spec gives `SyscallEventData: KernEvt, buf_size u32`, then the payload. -/
structure SyscallEvent where
  Ke : AgentKernEvt
  BufSize : Nat
deriving DecidableEq, Repr

/-- Modelled from the spec: `bpf.SyscallEventData`, the decoded header and the
payload the handler stores in `Buf`. -/
structure SyscallEventData where
  SyscallEvent : SyscallEvent
  Buf : List Byte
deriving DecidableEq, Repr

def decSyscallEvent : Dec SyscallEvent := fun buf => do
  let ke ← decKernEvt buf
  let bufSize ← Dec.uint32 buf
  pure { Ke := ke, BufSize := bufSize }

def sizeofSyscallEvent : Nat := sizeofKernEvt + 4

/-- Rounding of a struct size up to its alignment, as the Go compiler lays
structs out in memory. -/
def alignUp (n a : Nat) : Nat := (n + a - 1) / a * a

/-- The value of `unsafe.Sizeof(event.SyscallEvent)` on amd64: `Ke` (whose
generated declaration spells its padding out as blank fields, so that its size
in memory is its wire size, with alignment 8) followed by the `uint32`,
rounded up to the alignment of the struct. -/
def unsafeSizeofSyscallEvent : Nat := alignUp (sizeofKernEvt + 4) 8

/-- Modelled from the spec: the declaration of `bpf.SslEventHeader` is not
among the sources. Section 6 of the spec gives `SslData: KernEvt, extra SSL
header fields, buf_size u32`, then the plaintext. The extra fields are not
listed, so their wire size and the size of the struct in memory
(`unsafe.Sizeof(event.SslEventHeader)`) are parameters. -/
structure SslLayout where
  extraWire : Nat
  memSize : Nat
deriving DecidableEq, Repr

/-- Modelled from the spec: `bpf.SslEventHeader` with its unlisted fields kept
as raw bytes. -/
structure SslEventHeader where
  Ke : AgentKernEvt
  Extra : List Byte
  BufSize : Nat
deriving DecidableEq, Repr

/-- Modelled from the spec: `bpf.SslData`, the decoded header and the payload. -/
structure SslData where
  SslEventHeader : SslEventHeader
  Buf : List Byte
deriving DecidableEq, Repr

/-- The bytes `buf[off : off+n]` of a `[]byte` value, element by element. -/
def Dec.bytes (n : Nat) : Dec (List Byte) := fun buf off => ((buf.drop off).take n, off + n)

def decSslEventHeader (L : SslLayout) : Dec SslEventHeader := fun buf => do
  let ke ← decKernEvt buf
  let extra ← Dec.bytes L.extraWire buf
  let bufSize ← Dec.uint32 buf
  pure { Ke := ke, Extra := extra, BufSize := bufSize }

def sizeofSslEventHeader (L : SslLayout) : Nat := sizeofKernEvt + L.extraWire + 4

/-! ## Handler runs -/

/-- Run-time panics of the Go code. -/
inductive GoPanic
  | divideByZero
  | sliceBounds
deriving DecidableEq, Repr

/-- How a handler call ends. -/
inductive Ret
  | nil
  | err (e : IoError)
  | panic (p : GoPanic)
deriving DecidableEq, Repr

/-- Calls a handler makes, in order: `pm.GetProcessor(idx)`, the custom hook,
and `p.Add...Event(evt)` on the processor obtained for `idx`. -/
inductive Effect (E : Type)
  | getProcessor (idx : Int)
  | hook (evt : E)
  | add (idx : Int) (evt : E)
deriving DecidableEq, Repr

structure Run (E : Type) where
  ret : Ret
  trace : List (Effect E)
deriving DecidableEq, Repr

/-- The common tail of the four handlers:
`p := pm.GetProcessor(int(tgidFd) % processorsNum)`, the hook when it is not
nil, `p.Add...Event(event)`, `return nil`. -/
def dispatch {E : Type} (tgidFd : Nat) (processorsNum : Int) (hookSet : Bool) (event : E) : Run E :=
  match goRem (goInt tgidFd) processorsNum with
  | none => { ret := .panic .divideByZero, trace := [] }
  | some idx =>
    { ret := .nil
      trace := [.getProcessor idx] ++ (if hookSet then [.hook event] else []) ++ [.add idx event] }

/-- The slice expression `s[lo:]`: a run-time panic (`none`) when `lo > len(s)`. -/
def sliceFrom (s : List Byte) (lo : Nat) : Option (List Byte) :=
  if lo ≤ s.length then some (s.drop lo) else none

/-- The function `handleConnEvt` of agent.go. -/
def handleConnEvt (record : List Byte) (processorsNum : Int) (customConnEventHook : Bool) :
    Run AgentConnEvtT :=
  match binaryRead sizeofConnEvt decConnEvt record with
  | .error e => { ret := .err e, trace := [] }
  | .ok event =>
    let tgidFd := ((event.ConnInfo.ConnId.Upid.Pid <<< 32) % 2 ^ 64) |||
      toUnsigned 64 event.ConnInfo.ConnId.Fd
    dispatch tgidFd processorsNum customConnEventHook event

/-- The function `handleSslDataEvt` of agent.go, for a header layout `L`. -/
def handleSslDataEvt (L : SslLayout) (record : List Byte) (processorsNum : Int)
    (customSslEventHook : Bool) : Run SslData :=
  match binaryRead (sizeofSslEventHeader L) (decSslEventHeader L) record with
  | .error e => { ret := .err e, trace := [] }
  | .ok header =>
    let msgSize := header.BufSize
    let headerSize := L.memSize
    match sliceFrom record headerSize with
    | none => { ret := .panic .sliceBounds, trace := [] }
    | some rest =>
      match binaryRead msgSize (Dec.bytes msgSize) rest with
      | .error e => { ret := .err e, trace := [] }
      | .ok buf =>
        let event : SslData := { SslEventHeader := header, Buf := buf }
        let tgidFd := event.SslEventHeader.Ke.ConnIdS.TgidFd
        dispatch tgidFd processorsNum customSslEventHook event

/-- The function `handleSyscallEvt` of agent.go. -/
def handleSyscallEvt (record : List Byte) (processorsNum : Int) (customSyscallEventHook : Bool) :
    Run SyscallEventData :=
  match binaryRead sizeofSyscallEvent decSyscallEvent record with
  | .error e => { ret := .err e, trace := [] }
  | .ok syscallEvent =>
    let msgSize := syscallEvent.BufSize
    let finish (buf : List Byte) : Run SyscallEventData :=
      let event : SyscallEventData := { SyscallEvent := syscallEvent, Buf := buf }
      let tgidFd := event.SyscallEvent.Ke.ConnIdS.TgidFd
      dispatch tgidFd processorsNum customSyscallEventHook event
    if msgSize > 0 then
      let headerSize := unsafeSizeofSyscallEvent - 4
      match sliceFrom record headerSize with
      | none => { ret := .panic .sliceBounds, trace := [] }
      | some rest =>
        match binaryRead msgSize (Dec.bytes msgSize) rest with
        | .error e => { ret := .err e, trace := [] }
        | .ok buf => finish buf
    else finish (List.replicate msgSize 0)

/-- The function `handleKernEvt` of agent.go. -/
def handleKernEvt (record : List Byte) (processorsNum : Int) (customKernEventHook : Bool) :
    Run AgentKernEvt :=
  match binaryRead sizeofKernEvt decKernEvt record with
  | .error e => { ret := .err e, trace := [] }
  | .ok event =>
    let tgidFd := event.ConnIdS.TgidFd
    dispatch tgidFd processorsNum customKernEventHook event

/-! ## Options (`validateAndRepairOptions`) -/

/-- The fields of `AgentOptions` that `validateAndRepairOptions` reads or
writes, and the plain configuration fields it copies. A channel, function or
interface value is kept as whether it is non-nil. -/
structure AgentOptions where
  Stopper : Bool
  CustomSyscallEventHook : Bool
  CustomConnEventHook : Bool
  CustomKernEventHook : Bool
  CustomSslEventHook : Bool
  ProcessorsNum : Int
  MessageFilter : Bool
  IfName : String
  BTFFilePath : String
  BPFVerifyLogSize : Int
  AnalysisEnable : Bool
  PerfEventBufferSizeForData : Int
  PerfEventBufferSizeForEvent : Int
  DisableOpensslUprobe : Bool
deriving DecidableEq, Repr

def perfEventDataBufferSize : Int := 30 * 1024 * 1024
def perfEventControlBufferSize : Int := 1 * 1024 * 1024

/-- The function `validateAndRepairOptions` of agent.go; `numCPU` is the value
of `runtime.NumCPU()`. Each `if` of the source tests and assigns one field of
the copy `newOptions`, so the result is the input with these six fields
repaired, in the order of the source. -/
def validateAndRepairOptions (numCPU : Int) (options : AgentOptions) : AgentOptions :=
  { options with
    Stopper := if options.Stopper = false then true else options.Stopper
    ProcessorsNum := if options.ProcessorsNum = 0 then numCPU else options.ProcessorsNum
    MessageFilter := if options.MessageFilter = false then true else options.MessageFilter
    BPFVerifyLogSize :=
      if options.BPFVerifyLogSize ≤ 0 then 10 * 1024 else options.BPFVerifyLogSize
    PerfEventBufferSizeForData :=
      if options.PerfEventBufferSizeForData ≤ 0 then perfEventDataBufferSize
      else options.PerfEventBufferSizeForData
    PerfEventBufferSizeForEvent :=
      if options.PerfEventBufferSizeForEvent ≤ 0 then perfEventControlBufferSize
      else options.PerfEventBufferSizeForEvent }

/-! ## Filter parameters (`setAndValidateParameters`) -/

/-- The function `strconv.Atoi` on a 64 bit platform: an optional sign, then
one or more decimal digits, the value within the range of `int`; `none` is a
non-nil error. -/
def strconvAtoi (s : String) : Option Int :=
  let cs := s.toList
  let neg := cs.head? = some '-'
  let ds := if cs.head? = some '-' ∨ cs.head? = some '+' then cs.drop 1 else cs
  if ds = [] then none
  else if ds.all (fun c => decide ('0' ≤ c ∧ c ≤ '9')) then
    let n : Nat := ds.foldl (fun acc c => acc * 10 + (c.toNat - '0'.toNat)) 0
    let v : Int := if neg then -(n : Int) else (n : Int)
    if -(2 : Int) ^ 63 ≤ v ∧ v < (2 : Int) ^ 63 then some v else none
  else none

/-- A BPF hash map as the agent writes it: the entries, latest update first. -/
abbrev BpfMap := List (Nat × Nat)

/-- The call `m.Update(key, value, ebpf.UpdateAny)`, taken to succeed (its
error is only logged): create or overwrite. -/
def BpfMap.Update (m : BpfMap) (key value : Nat) : BpfMap :=
  (key, value) :: m.filter (fun e => e.1 ≠ key)

/-- Whether a key is present in the map. -/
def BpfMap.has (m : BpfMap) (key : Nat) : Bool := m.any (fun e => e.1 == key)

/-- The four maps `setAndValidateParameters` obtains through `bpf.GetMap`. -/
structure FilterMaps where
  ControlValues : BpfMap
  EnabledRemotePortMap : BpfMap
  EnabledRemoteIpv4Map : BpfMap
  EnabledLocalPortMap : BpfMap
deriving DecidableEq, Repr

def FilterMaps.empty : FilterMaps :=
  { ControlValues := [], EnabledRemotePortMap := [], EnabledRemoteIpv4Map := [],
    EnabledLocalPortMap := [] }

/-- The configuration values `setAndValidateParameters` reads through viper. -/
structure FilterConfig where
  FilterPid : Int
  RemotePorts : List String
  RemoteIps : List String
  LocalPorts : List String
deriving DecidableEq, Repr

/-- The index `AgentControlValueIndexTKTargetTGIDIndex`. -/
def kTargetTGIDIndex : Nat := 0

/-- The loop over a port list (`for _, each := range remotePorts` and the same
loop over `localPorts`): `false` is the `return false` of an invalid entry,
with the map as the earlier iterations left it. -/
def portLoop (m : BpfMap) : List String → Bool × BpfMap
  | [] => (true, m)
  | each :: rest =>
    match strconvAtoi each with
    | none => (false, m)
    | some portInt =>
      if portInt ≤ 0 then (false, m)
      else
        let portNumber := toUnsigned 16 portInt
        portLoop (m.Update portNumber 0) rest

/-- The loop over `remoteIps`; `ipv4ToUint32` is `common.IPv4ToUint32`, which
is not among the sources (`none` is its error). -/
def ipLoop (ipv4ToUint32 : String → Option Nat) (m : BpfMap) : List String → Bool × BpfMap
  | [] => (true, m)
  | each :: rest =>
    match ipv4ToUint32 each with
    | none => (false, m)
    | some ipInt32 => ipLoop ipv4ToUint32 (m.Update ipInt32 0) rest

/-- The block `if len(remotePorts) > 0 { ... }`: the sentinel key `1`
(`oneKey`, value `zeroValue`) and then the loop; `false` is its `return false`. -/
def remotePortStage (cfg : FilterConfig) (m : BpfMap) : Bool × BpfMap :=
  if cfg.RemotePorts.length > 0 then portLoop (m.Update 1 0) cfg.RemotePorts else (true, m)

/-- The block `if len(remoteIps) > 0 { ... }`: the sentinel key `1`
(`oneKeyU32`, value `zeroValue`) and then the loop. -/
def remoteIpStage (ipv4ToUint32 : String → Option Nat) (cfg : FilterConfig) (m : BpfMap) :
    Bool × BpfMap :=
  if cfg.RemoteIps.length > 0 then ipLoop ipv4ToUint32 (m.Update 1 0) cfg.RemoteIps else (true, m)

/-- The block `if len(localPorts) > 0 { ... }`: the sentinel key `1` with the
value `uint8(oneKey)` and then the loop. -/
def localPortStage (cfg : FilterConfig) (m : BpfMap) : Bool × BpfMap :=
  if cfg.LocalPorts.length > 0 then portLoop (m.Update 1 (1 % 256)) cfg.LocalPorts else (true, m)

/-- The function `setAndValidateParameters` of agent.go: the returned flag
and the maps as the call leaves them. The target pid goes to `ControlValues`
when it is positive, then the three filter blocks run in order, each one
ending the call with `false` at its first invalid entry. -/
def setAndValidateParameters (ipv4ToUint32 : String → Option Nat) (cfg : FilterConfig)
    (maps : FilterMaps) : Bool × FilterMaps :=
  let controlValues := if cfg.FilterPid > 0
    then maps.ControlValues.Update kTargetTGIDIndex (toUnsigned 64 cfg.FilterPid)
    else maps.ControlValues
  let r1 := remotePortStage cfg maps.EnabledRemotePortMap
  if r1.1 = false then
    (false, { ControlValues := controlValues, EnabledRemotePortMap := r1.2,
              EnabledRemoteIpv4Map := maps.EnabledRemoteIpv4Map,
              EnabledLocalPortMap := maps.EnabledLocalPortMap })
  else
    let r2 := remoteIpStage ipv4ToUint32 cfg maps.EnabledRemoteIpv4Map
    if r2.1 = false then
      (false, { ControlValues := controlValues, EnabledRemotePortMap := r1.2,
                EnabledRemoteIpv4Map := r2.2,
                EnabledLocalPortMap := maps.EnabledLocalPortMap })
    else
      let r3 := localPortStage cfg maps.EnabledLocalPortMap
      if r3.1 = false then
        (false, { ControlValues := controlValues, EnabledRemotePortMap := r1.2,
                  EnabledRemoteIpv4Map := r2.2, EnabledLocalPortMap := r3.2 })
      else
        (true, { ControlValues := controlValues, EnabledRemotePortMap := r1.2,
                 EnabledRemoteIpv4Map := r2.2, EnabledLocalPortMap := r3.2 })

/-! ## Step codes (`Openssl111jStepT`) -/

def Openssl111jStepTStart : Nat := 0
def Openssl111jStepTSSL_OUT : Nat := 1
def Openssl111jStepTSYSCALL_OUT : Nat := 2
def Openssl111jStepTTCP_OUT : Nat := 3
def Openssl111jStepTIP_OUT : Nat := 4
def Openssl111jStepTQDISC_OUT : Nat := 5
def Openssl111jStepTDEV_OUT : Nat := 6
def Openssl111jStepTNIC_OUT : Nat := 7
def Openssl111jStepTNIC_IN : Nat := 8
def Openssl111jStepTDEV_IN : Nat := 9
def Openssl111jStepTIP_IN : Nat := 10
def Openssl111jStepTTCP_IN : Nat := 11
def Openssl111jStepTUSER_COPY : Nat := 12
def Openssl111jStepTSYSCALL_IN : Nat := 13
def Openssl111jStepTSSL_IN : Nat := 14
def Openssl111jStepTEnd : Nat := 15

/-- The step kinds of `Openssl111jStepT`, the two loop bounds `Start` and `End`
left out, in the order of the step chain: egress from the TLS library down to
the NIC, then ingress from the NIC up to the TLS library. -/
def stepChain : List Nat :=
  [Openssl111jStepTSSL_OUT, Openssl111jStepTSYSCALL_OUT, Openssl111jStepTTCP_OUT,
   Openssl111jStepTIP_OUT, Openssl111jStepTQDISC_OUT, Openssl111jStepTDEV_OUT,
   Openssl111jStepTNIC_OUT, Openssl111jStepTNIC_IN, Openssl111jStepTDEV_IN,
   Openssl111jStepTIP_IN, Openssl111jStepTTCP_IN, Openssl111jStepTUSER_COPY,
   Openssl111jStepTSYSCALL_IN, Openssl111jStepTSSL_IN]

/-- The egress steps of the chain. -/
def egressSteps : List Nat :=
  [Openssl111jStepTSSL_OUT, Openssl111jStepTSYSCALL_OUT, Openssl111jStepTTCP_OUT,
   Openssl111jStepTIP_OUT, Openssl111jStepTQDISC_OUT, Openssl111jStepTDEV_OUT,
   Openssl111jStepTNIC_OUT]

/-- The ingress steps of the chain. -/
def ingressSteps : List Nat :=
  [Openssl111jStepTNIC_IN, Openssl111jStepTDEV_IN, Openssl111jStepTIP_IN,
   Openssl111jStepTTCP_IN, Openssl111jStepTUSER_COPY, Openssl111jStepTSYSCALL_IN,
   Openssl111jStepTSSL_IN]

/-- The values `step` takes in `for step := start; step < stop; step++`. -/
def stepLoop (start stop : Nat) : List Nat :=
  (List.range (stop - start)).map (fun i => start + i)

/-- Modelled from the spec: the declarations `bpf.AgentStepTStart` and
`bpf.AgentStepTEnd`, the bounds of the loop of `filterFunctions`, are not
among the sources; the spec's step chain is the one of `Openssl111jStepT`,
which bpf2go generates from the same C enum. -/
def AgentStepTStart : Nat := Openssl111jStepTStart

/-- Modelled from the spec: see `AgentStepTStart`. -/
def AgentStepTEnd : Nat := Openssl111jStepTEnd

/-! ## Attaching programs (`attachBpfProgs`) -/

/-- The type `compatible.InstrumentFunction`, whose declaration is not among
the sources: the program name the code reads and the results of its three
predicates `IsKprobe()`, `IsTracepoint()` and `IsKRetprobe()`. -/
structure InstrumentFunction where
  BPFGoProgName : String
  IsKprobe : Bool
  IsTracepoint : Bool
  IsKRetprobe : Bool
deriving DecidableEq, Repr

/-- A `link.Link`. -/
abbrev Link := Nat

/-- The attach call the loop makes for a function: `bpf.Kprobe`,
`bpf.Tracepoint` or `bpf.Kretprobe`. -/
inductive AttachCall
  | Kprobe (function : InstrumentFunction)
  | Tracepoint (function : InstrumentFunction)
  | Kretprobe (function : InstrumentFunction)
deriving DecidableEq, Repr

/-- How the attach loop ends: it ran to its end, `common.AgentLog.Fatalf`
ended the process, or `panic("invalid program type")`. The logger is not among
the sources; its `Fatalf` is taken to log and end the process, the
specification's "fail fatally". -/
inductive AttachEnd
  | done
  | fatal
  | panic
deriving DecidableEq, Repr

/-- The link list built so far and the attach calls made so far, in order. -/
structure AttachState where
  linkList : List Link
  tried : List AttachCall
deriving DecidableEq, Repr

/-- The `if function.IsKprobe() ... else if ... else panic` chain: the call to
make, or `none` for the panic. -/
def attachCallOf (function : InstrumentFunction) : Option AttachCall :=
  if function.IsKprobe then some (.Kprobe function)
  else if function.IsTracepoint then some (.Tracepoint function)
  else if function.IsKRetprobe then some (.Kretprobe function)
  else none

/-- The loop `for idx, function := range functions` of `attachBpfProgs`, from
index `idx` on (`rest` are the functions from `idx` on); `attach` gives the
result of an attach call, `none` being `err != nil`. -/
def attachFallbacks (attach : AttachCall → Option Link) (functions : List InstrumentFunction) :
    Nat → List InstrumentFunction → AttachState → AttachEnd × AttachState
  | _, [], st => (.done, st)
  | idx, function :: rest, st =>
    match attachCallOf function with
    | none => (.panic, st)
    | some call =>
      match attach call with
      | none =>
        if idx = functions.length - 1 then
          (.fatal, { linkList := st.linkList, tried := st.tried ++ [call] })
        else
          attachFallbacks attach functions (idx + 1) rest
            { linkList := st.linkList, tried := st.tried ++ [call] }
      | some l => (.done, { linkList := st.linkList ++ [l], tried := st.tried ++ [call] })

/-- The loop `for _, functions := range kernelVersion.InstrumentFunctions` of
`attachBpfProgs`; the list gives the fallback lists in the order the range
over the Go map happens to visit them. -/
def attachInstrumentFunctions (attach : AttachCall → Option Link) :
    List (List InstrumentFunction) → AttachState → AttachEnd × AttachState
  | [], st => (.done, st)
  | functions :: more, st =>
    match attachFallbacks attach functions 0 functions st with
    | (.done, st1) => attachInstrumentFunctions attach more st1
    | (.fatal, st1) => (.fatal, st1)
    | (.panic, st1) => (.panic, st1)

/-! ## Filtering programs (`filterFunctions`) -/

/-- What the code asks of a `compatible.KernelVersion` (its declaration is not
among the sources): the results of `SupportCapability` for the three
capabilities used and the map `InstrumentFunctions` from step to fallback
list, as an association list. -/
structure KernelVersion where
  SupportXDP : Bool
  SupportRawTracepoint : Bool
  SupportRingBuffer : Bool
  InstrumentFunctions : List (Nat × List InstrumentFunction)
deriving DecidableEq, Repr

/-- The names `filterFunctions` takes from package `bpf`, whose declarations
are not among the sources: `XDPProgramName`, `TcpDestroySocketProgName`,
the map `GoProgName2CProgName` (a missing key gives `""`) and
`SyscallExtraProgNames`. -/
structure BpfNames where
  XDPProgramName : String
  TcpDestroySocketProgName : String
  GoProgName2CProgName : String → String
  SyscallExtraProgNames : List String

/-- The fields of an `ebpf.ProgramSpec` that `socketFilterSpec` sets. -/
structure ProgramSpec where
  Name : String
  ProgType : String
  SectionName : String
  Instructions : List String
  License : String
deriving DecidableEq, Repr

/-- The variable `socketFilterSpec` of agent.go. -/
def socketFilterSpec : ProgramSpec :=
  { Name := "test"
    ProgType := "Kprobe"
    SectionName := "kprobe/sys_accept"
    Instructions := ["LoadImm R0 2 DWord", "Return"]
    License := "MIT" }

/-- The map `coll.Programs`, from program name to spec. -/
abbrev Programs := List (String × ProgramSpec)

/-- The assignment `programs[name] = spec` on a Go map. -/
def Programs.assign (programs : Programs) (name : String) (spec : ProgramSpec) : Programs :=
  if programs.any (fun e => e.1 == name)
  then programs.map (fun e => if e.1 = name then (e.1, spec) else e)
  else programs ++ [(name, spec)]

/-- The call `strings.HasPrefix(name, p)`. -/
def hasPrefix (name p : String) : Bool := p.toList.isPrefixOf name.toList

/-- The names the loop over the steps appends: for each step from `Start` to
`End - 1` that is a key of `InstrumentFunctions`, the C name of each function. -/
def stepProgNames (B : BpfNames) (kernelVersion : KernelVersion) : List String :=
  (stepLoop AgentStepTStart AgentStepTEnd).foldl
    (fun names step =>
      match kernelVersion.InstrumentFunctions.lookup step with
      | some functions =>
        names ++ functions.map (fun function => B.GoProgName2CProgName function.BPFGoProgName)
      | none => names)
    []

/-- The slice `finalCProgNames` of `filterFunctions` once it is complete. -/
def finalCProgNames (B : BpfNames) (coll : Programs) (kernelVersion : KernelVersion) :
    List String :=
  (if kernelVersion.SupportXDP then [B.XDPProgramName] else [])
  ++ (if kernelVersion.SupportRawTracepoint then [B.TcpDestroySocketProgName] else [])
  ++ stepProgNames B kernelVersion
  ++ B.SyscallExtraProgNames
  ++ (coll.map Prod.fst).filter
      (fun name => hasPrefix name "tracepoint__syscalls" || hasPrefix name "tracepoint__sched")

/-- The slice `needsDelete`: the names with `slices.Index(finalCProgNames, name) == -1`. -/
def needsDelete (B : BpfNames) (coll : Programs) (kernelVersion : KernelVersion) : List String :=
  (coll.map Prod.fst).filter (fun cProgName => !(finalCProgNames B coll kernelVersion).contains cProgName)

/-- The function `filterFunctions` of agent.go: the programs of the
collection after the call. -/
def filterFunctions (B : BpfNames) (coll : Programs) (kernelVersion : KernelVersion) : Programs :=
  (needsDelete B coll kernelVersion).foldl (fun programs each => programs.assign each socketFilterSpec)
    coll

/-- The allowed set as the specification words it: the XDP program when the
kernel supports XDP, the TCP-destroy-sock raw tracepoint when raw tracepoints
are supported, the C name of every function that `InstrumentFunctions` lists
for a step `s` with `Start <= s < End`, every name of `SyscallExtraProgNames`,
and every name with prefix `tracepoint__syscalls` or `tracepoint__sched`. -/
def allowedName (B : BpfNames) (kernelVersion : KernelVersion) (name : String) : Prop :=
  (kernelVersion.SupportXDP = true ∧ name = B.XDPProgramName)
  ∨ (kernelVersion.SupportRawTracepoint = true ∧ name = B.TcpDestroySocketProgName)
  ∨ (∃ s functions function, AgentStepTStart ≤ s ∧ s < AgentStepTEnd
      ∧ kernelVersion.InstrumentFunctions.lookup s = some functions ∧ function ∈ functions
      ∧ name = B.GoProgName2CProgName function.BPFGoProgName)
  ∨ name ∈ B.SyscallExtraProgNames
  ∨ hasPrefix name "tracepoint__syscalls" = true
  ∨ hasPrefix name "tracepoint__sched" = true

/-! ## Readers (`setupReaders`, `startReaders`, the reader loops) -/

/-- The reader `setupReader` creates for a map: a `ringbuf.Reader`, or a
`perf.Reader` with its per-CPU buffer size. -/
inductive ReaderKind
  | ringbuf
  | perf (perCPUBuffer : Int)
deriving DecidableEq, Repr

/-- A created reader: the map it reads and its kind. -/
structure Reader where
  mapName : String
  kind : ReaderKind
deriving DecidableEq, Repr

/-- The function `setupReader` of agent.go; `newReaderFails` tells for which
maps `ringbuf.NewReader` or `perf.NewReader` returns an error. -/
def setupReader (newReaderFails : String → Bool) (options : AgentOptions)
    (kernel : KernelVersion) (mapName : String) (isDataBuffer : Bool) : Option Reader :=
  if newReaderFails mapName then none
  else if kernel.SupportRingBuffer then some { mapName := mapName, kind := .ringbuf }
  else if isDataBuffer then
    some { mapName := mapName, kind := .perf options.PerfEventBufferSizeForData }
  else some { mapName := mapName, kind := .perf options.PerfEventBufferSizeForEvent }

/-- The outcome of `setupReaders`: the slice it returns (a nil slice is the
empty list), whether the error is non-nil, and the readers it created, in
order. -/
structure SetupReadersResult where
  closers : List Reader
  err : Bool
  created : List Reader
deriving DecidableEq, Repr

/-- The function `setupReaders` of agent.go. -/
def setupReaders (newReaderFails : String → Bool) (options : AgentOptions)
    (kernel : KernelVersion) : SetupReadersResult :=
  let closers : List Reader := []
  match setupReader newReaderFails options kernel "SyscallRb" true with
  | none => { closers := [], err := true, created := [] }
  | some syscallDataReader =>
    let closers := closers ++ [syscallDataReader]
    match setupReader newReaderFails options kernel "SslRb" true with
    | none => { closers := [], err := true, created := [syscallDataReader] }
    | some sslDataReader =>
      let closers := closers ++ [sslDataReader]
      match setupReader newReaderFails options kernel "Rb" false with
      | none => { closers := closers, err := true, created := [syscallDataReader, sslDataReader] }
      | some kernEventReader =>
        let closers := closers ++ [kernEventReader]
        match setupReader newReaderFails options kernel "ConnEvtRb" false with
        | none =>
          { closers := closers, err := true,
            created := [syscallDataReader, sslDataReader, kernEventReader] }
        | some connEvtReader =>
          let closers := closers ++ [connEvtReader]
          { closers := closers, err := false,
            created := [syscallDataReader, sslDataReader, kernEventReader, connEvtReader] }

/-- The readers left open by the error path of `SetupAgent`
(`for _, reader := range readers { reader.Close() }` and `return`): the
created readers that are not among the returned ones. -/
def readersLeftOpen (r : SetupReadersResult) : List Reader :=
  r.created.filter (fun reader => !r.closers.contains reader)

/-- The run of one of the four handlers. -/
inductive HandlerRun
  | syscall (run : Run SyscallEventData)
  | ssl (run : Run SslData)
  | kern (run : Run AgentKernEvt)
  | conn (run : Run AgentConnEvtT)
deriving DecidableEq, Repr

/-- The reader-loop function `startReaders` calls. -/
inductive StartCall
  | startRingbufferReader
  | startPerfeventReader
deriving DecidableEq, Repr

/-- One call of `startReaders`: the loop function, the index `i` of
`readers[i]`, and the closure passed as `consumeFunction`, as a function of
`r.RawSample`. -/
structure ReaderStart where
  start : StartCall
  readerIndex : Nat
  consume : List Byte → HandlerRun

/-- The function `startReaders` of agent.go: its four calls, in order. The
processor manager `pm` is the one the handler traces refer to. -/
def startReaders (L : SslLayout) (options : AgentOptions) (kernel : KernelVersion) :
    List ReaderStart :=
  if kernel.SupportRingBuffer then
    [ { start := .startRingbufferReader, readerIndex := 0
        consume := fun rawSample => .syscall
          (handleSyscallEvt rawSample options.ProcessorsNum options.CustomSyscallEventHook) },
      { start := .startRingbufferReader, readerIndex := 1
        consume := fun rawSample => .ssl
          (handleSslDataEvt L rawSample options.ProcessorsNum options.CustomSslEventHook) },
      { start := .startRingbufferReader, readerIndex := 2
        consume := fun rawSample => .kern
          (handleKernEvt rawSample options.ProcessorsNum options.CustomKernEventHook) },
      { start := .startRingbufferReader, readerIndex := 3
        consume := fun rawSample => .conn
          (handleConnEvt rawSample options.ProcessorsNum options.CustomConnEventHook) } ]
  else
    [ { start := .startPerfeventReader, readerIndex := 0
        consume := fun rawSample => .syscall
          (handleSyscallEvt rawSample options.ProcessorsNum options.CustomSyscallEventHook) },
      { start := .startPerfeventReader, readerIndex := 1
        consume := fun rawSample => .ssl
          (handleSslDataEvt L rawSample options.ProcessorsNum options.CustomSslEventHook) },
      { start := .startPerfeventReader, readerIndex := 2
        consume := fun rawSample => .kern
          (handleKernEvt rawSample options.ProcessorsNum options.CustomKernEventHook) },
      { start := .startPerfeventReader, readerIndex := 3
        consume := fun rawSample => .conn
          (handleConnEvt rawSample options.ProcessorsNum options.CustomConnEventHook) } ]

/-- Whether the type assertion at the head of the loop function
(`reader.(*ringbuf.Reader)`, `reader.(*perf.Reader)`) holds for a reader. -/
def StartCall.accepts : StartCall → ReaderKind → Bool
  | .startRingbufferReader, .ringbuf => true
  | .startPerfeventReader, .perf _ => true
  | _, _ => false

/-- What a call of `Read()` on a reader returns: a record, an error for which
`errors.Is(err, perf.ErrClosed)` holds, or another error. -/
inductive ReadResult (R : Type)
  | record (r : R)
  | errClosed
  | errOther
deriving DecidableEq, Repr

/-- What the goroutine of a reader loop does, in order. -/
inductive LoopEvent (R : Type)
  | consume (r : R)
  | logConsumeError
  | logReadError
  | logLostSamples (n : Nat)
  | exit
deriving DecidableEq, Repr

/-- The goroutine of `startRingbufferReader` on the results its successive
`Read()` calls return; `consumeFunction` returns whether its error is non-nil.
When the results run out without an `ErrClosed` the goroutine is blocked in
`Read()` and no `exit` is recorded. -/
def startRingbufferReader {R : Type} (consumeFunction : R → Bool) :
    List (ReadResult R) → List (LoopEvent R)
  | [] => []
  | .errClosed :: _ => [.exit]
  | .errOther :: reads => .logReadError :: startRingbufferReader consumeFunction reads
  | .record record :: reads =>
    if consumeFunction record then
      .consume record :: .logConsumeError :: startRingbufferReader consumeFunction reads
    else .consume record :: startRingbufferReader consumeFunction reads

/-- A `perf.Record`: the sample and the count of lost samples. -/
structure PerfRecord where
  RawSample : List Byte
  LostSamples : Nat
deriving DecidableEq, Repr

/-- The goroutine of `startPerfeventReader`, as `startRingbufferReader`. -/
def startPerfeventReader (consumeFunction : PerfRecord → Bool) :
    List (ReadResult PerfRecord) → List (LoopEvent PerfRecord)
  | [] => []
  | .errClosed :: _ => [.exit]
  | .errOther :: reads => .logReadError :: startPerfeventReader consumeFunction reads
  | .record record :: reads =>
    if consumeFunction record then
      .consume record :: .logConsumeError :: startPerfeventReader consumeFunction reads
    else if record.LostSamples > 0 then
      .consume record :: .logLostSamples record.LostSamples
        :: startPerfeventReader consumeFunction reads
    else .consume record :: startPerfeventReader consumeFunction reads

/-- The records the loop handed to `consumeFunction`, in order. -/
def consumed {R : Type} : List (LoopEvent R) → List R
  | [] => []
  | .consume r :: events => r :: consumed events
  | _ :: events => consumed events

/-- The records among read results, in order. -/
def recordsOf {R : Type} : List (ReadResult R) → List R
  | [] => []
  | .record r :: reads => r :: recordsOf reads
  | _ :: reads => recordsOf reads

/-- The index a handler run passed to `pm.GetProcessor`, if it got that far. -/
def processorIndex {E : Type} (run : Run E) : Option Int :=
  run.trace.findSome? (fun effect =>
    match effect with
    | .getProcessor idx => some idx
    | _ => none)

/-- The map after the writes of the port loop for the port numbers `ports`:
key `uint16(p)`, value `zeroValue`, in order. -/
def writePorts (m : BpfMap) (ports : List Int) : BpfMap :=
  ports.foldl (fun acc p => acc.Update (toUnsigned 16 p) 0) m

/-- The map after the writes of the IP loop for the addresses `ips`. -/
def writeIps (m : BpfMap) (ips : List Nat) : BpfMap :=
  ips.foldl (fun acc ip => acc.Update ip 0) m

/-! ## BTF file selection (`getBestMatchedBTFFile`) -/

/-- A Go `string` where the code indexes, slices and compares its bytes. -/
abbrev GoString := List Byte

/-- The bytes of a string literal of the source (ASCII). -/
def goString (s : String) : GoString := s.toList.map (fun c => Fin.ofNat c.toNat)

/-- The call `strings.Index(s, substr)`: the index of the first occurrence of
`substr` in `s`, `none` for `-1`. -/
def stringsIndex (s substr : GoString) : Option Nat :=
  match s with
  | [] => if substr = [] then some 0 else none
  | _ :: rest =>
    if substr.isPrefixOf s then some 0 else (stringsIndex rest substr).map (fun i => i + 1)

/-- The slice expression `s[:hi]` on a string: a run-time panic (`none`) when
`hi > len(s)`. -/
def sliceTo (s : GoString) (hi : Nat) : Option GoString :=
  if hi ≤ s.length then some (s.take hi) else none

/-- The loop of `utils.StringComparator` of the treemap library: the
difference of the first pair of bytes that differ within the common length,
`0` when there is none. -/
def comparatorDiff : GoString → GoString → Int
  | a :: s1, b :: s2 =>
    if (a.val : Int) - (b.val : Int) ≠ 0 then (a.val : Int) - (b.val : Int)
    else comparatorDiff s1 s2
  | _, _ => 0

/-- The function `utils.StringComparator` of the treemap library
(`treemap.NewWithStringComparator`): `-1`, `0` or `1`. -/
def StringComparator (s1 s2 : GoString) : Int :=
  let diff := comparatorDiff s1 s2
  let diff := if diff = 0 then (s1.length : Int) - (s2.length : Int) else diff
  if diff < 0 then -1 else if diff > 0 then 1 else 0

/-- An `fs.DirEntry` of the embedded file system: its name. -/
structure DirEntry where
  Name : GoString
deriving DecidableEq, Repr

/-- The treemap `btfFileNames`, from key to directory entry. The library is
not part of the sources; the map is kept as its list of entries and the three
operations the code uses follow the library's documentation. -/
abbrev TreeMap := List (GoString × DirEntry)

/-- The call `m.Put(key, value)`: insert, or replace the entry whose key
compares equal. -/
def TreeMap.Put (m : TreeMap) (key : GoString) (value : DirEntry) : TreeMap :=
  if m.any (fun e => StringComparator e.1 key == 0)
  then m.map (fun e => if StringComparator e.1 key = 0 then (key, value) else e)
  else m ++ [(key, value)]

/-- The call `m.Get(key)`: the value of the entry whose key compares equal
(`none` for `found == false`). -/
def TreeMap.Get (m : TreeMap) (key : GoString) : Option DirEntry :=
  (m.find? (fun e => StringComparator e.1 key == 0)).map Prod.snd

/-- The call `m.Floor(key)`: the entry with the largest key that compares
smaller than or equal to `key` (`none` for a nil key). -/
def TreeMap.Floor (m : TreeMap) (key : GoString) : Option (GoString × DirEntry) :=
  m.foldl
    (fun best e =>
      if StringComparator e.1 key ≤ 0 then
        match best with
        | none => some e
        | some b => if StringComparator b.1 e.1 < 0 then some e else some b
      else best)
    none

/-- What `getBestMatchedBTFFile` reads from its environment, none of it among
the sources: `bpf.IsKernelSupportHasBTF()`, the fields of `sysinfo.SysInfo` it
uses, and the embedded file system `bpf.BtfFiles` (`none` is an error). -/
structure BtfEnv where
  IsKernelSupportHasBTF : Bool
  Vendor : GoString
  OSArchitecture : GoString
  OSRelease : GoString
  KernelArchitecture : GoString
  KernelRelease : GoString
  ReadDir : GoString → Option (List DirEntry)
  ReadFile : GoString → Option (List Byte)

/-- How a call of `getBestMatchedBTFFile` ends: `(nil, nil)`, `(file, nil)`,
the error of `ReadDir`, the error `"no btf file found to load"`,
`common.AgentLog.Fatal`, or the panic of a slice expression. -/
inductive BtfOutcome
  | nilNil
  | file (bytes : List Byte)
  | errReadDir
  | errNoBtfFile
  | fatal
  | panic
deriving DecidableEq, Repr

/-- The key of a directory entry: its name cut at the first `".btf"`, `none`
when the name has no `".btf"` (`idx == -1`). -/
def btfKey (entry : DirEntry) : Option GoString :=
  (stringsIndex entry.Name (goString ".btf")).map (fun idx => entry.Name.take idx)

/-- The loop `for _, entry := range dir` that fills `btfFileNames`. -/
def btfFileNames (dir : List DirEntry) : TreeMap :=
  dir.foldl
    (fun m entry =>
      match btfKey entry with
      | some btfFileName => m.Put btfFileName entry
      | none => m)
    []

/-- The read `bpf.BtfFiles.ReadFile(btfFileDir + "/" + fileName)` for an entry. -/
def readEntry (env : BtfEnv) (btfFileDir : GoString) (entry : DirEntry) : Option (List Byte) :=
  env.ReadFile (btfFileDir ++ goString "/" ++ entry.Name)

/-- The part of `getBestMatchedBTFFile` after the directory has been read:
the exact lookup, then the floor lookup, then the error. -/
def selectBTFFile (env : BtfEnv) (btfFileDir : GoString) (dir : List DirEntry) : BtfOutcome :=
  let release := env.KernelRelease
  let exact : Option (List Byte) :=
    match (btfFileNames dir).Get release with
    | some dirEntry => readEntry env btfFileDir dirEntry
    | none => none
  match exact with
  | some file => .file file
  | none =>
    match (btfFileNames dir).Floor release with
    | some (_, dirEntry) =>
      match readEntry env btfFileDir dirEntry with
      | some file => .file file
      | none => .errNoBtfFile
    | none => .errNoBtfFile

/-- The directory `btfFileDir` for the release prefix `rel`
(`si.OS.Release[:1]` on centos, `si.OS.Release[:5]` otherwise). -/
def btfFileDirOf (env : BtfEnv) (rel : GoString) : GoString :=
  goString "custom-archive" ++ (goString "/" ++ env.Vendor) ++ (goString "/" ++ rel)
    ++ (goString "/" ++ env.KernelArchitecture)

/-- The function `getBestMatchedBTFFile` of agent.go. -/
def getBestMatchedBTFFile (env : BtfEnv) : BtfOutcome :=
  if env.IsKernelSupportHasBTF then .nilNil
  else if env.Vendor ≠ goString "ubuntu" ∧ env.Vendor ≠ goString "centos" then .fatal
  else if env.OSArchitecture ≠ goString "amd64" then .fatal
  else if env.KernelArchitecture ≠ goString "x86_64" then .fatal
  else
    match sliceTo env.OSRelease (if env.Vendor = goString "centos" then 1 else 5) with
    | none => .panic
    | some rel =>
      match env.ReadDir (btfFileDirOf env rel) with
      | none => .errReadDir
      | some dir => selectBTFFile env (btfFileDirOf env rel) dir

/-- A 64 byte kernel-step record that is zero except for `conn_id_s.tgid_fd`,
whose eight bytes (offset 40) are given. -/
def kernRecordWithKey (key : List Byte) : List Byte :=
  List.replicate 40 0 ++ key ++ List.replicate 16 0

/-- The key `2^63 + 1` (tgid `2^31`, fd `1`), little-endian. -/
def highKeyBytes : List Byte := [1, 0, 0, 0, 0, 0, 0, 0x80]

/-- The key `2^33 - 1` (tgid `1`, fd `-1` as an unsigned 32 bit value), little-endian. -/
def negFdKeyBytes : List Byte := [0xff, 0xff, 0xff, 0xff, 1, 0, 0, 0]

/-- A 160 byte connection record that is zero except for `pid = 1` (offset 0)
and `fd = -1` (offset 16). -/
def connRecordNegFd : List Byte :=
  [1, 0, 0, 0] ++ List.replicate 12 0 ++ [0xff, 0xff, 0xff, 0xff] ++ List.replicate 140 0

/-- A syscall record: a zero KernEvt header, `buf_size = 2`, three bytes after it. -/
def syscallRecordSample : List Byte := List.replicate 64 0 ++ [2, 0, 0, 0] ++ [9, 8, 7]

/-- The SSL header layout `Ke`, `uint64`, `uint32`, `BufSize uint32`: 12 extra
wire bytes, 80 bytes in memory. -/
def sslLayout80 : SslLayout := { extraWire := 12, memSize := 80 }

/-- The zero value of `AgentOptions`. -/
def zeroOptions : AgentOptions :=
  { Stopper := false, CustomSyscallEventHook := false, CustomConnEventHook := false,
    CustomKernEventHook := false, CustomSslEventHook := false, ProcessorsNum := 0,
    MessageFilter := false, IfName := "", BTFFilePath := "", BPFVerifyLogSize := 0,
    AnalysisEnable := false, PerfEventBufferSizeForData := 0, PerfEventBufferSizeForEvent := 0,
    DisableOpensslUprobe := false }

/-- A function attached as a kprobe. -/
def sampleKprobe : InstrumentFunction :=
  { BPFGoProgName := "TcpSendmsg", IsKprobe := true, IsTracepoint := false, IsKRetprobe := false }

/-- A function attached as a tracepoint. -/
def sampleTracepoint : InstrumentFunction :=
  { BPFGoProgName := "NetDevQueue", IsKprobe := false, IsTracepoint := true,
    IsKRetprobe := false }

/-- A function attached as a kretprobe. -/
def sampleKretprobe : InstrumentFunction :=
  { BPFGoProgName := "SockAlloc", IsKprobe := false, IsTracepoint := false, IsKRetprobe := true }

/-- A kernel on which only tracepoints attach, with link `7`. -/
def attachOnlyTracepoints : AttachCall → Option Link
  | .Tracepoint _ => some 7
  | _ => none

/-- A kernel with ring buffers, XDP and raw tracepoints, and one instrumented step. -/
def ringKernel : KernelVersion :=
  { SupportXDP := true, SupportRawTracepoint := true, SupportRingBuffer := true,
    InstrumentFunctions := [(Openssl111jStepTTCP_OUT, [sampleKprobe, sampleTracepoint])] }

/-- An older kernel: no ring buffer, no XDP, no raw tracepoint. -/
def perfKernel : KernelVersion :=
  { SupportXDP := false, SupportRawTracepoint := false, SupportRingBuffer := false,
    InstrumentFunctions := [(Openssl111jStepTTCP_OUT, [sampleKprobe])] }

/-- Program names for the examples. -/
def sampleBpfNames : BpfNames :=
  { XDPProgramName := "xdp_proxy", TcpDestroySocketProgName := "tcp_destroy_sock",
    GoProgName2CProgName := fun goName => "c_" ++ goName,
    SyscallExtraProgNames := ["security_socket_sendmsg_enter"] }

/-- A loaded program spec for the examples. -/
def loadedSpec (name : String) : ProgramSpec :=
  { Name := name, ProgType := "Kprobe", SectionName := "kprobe/" ++ name, Instructions := [],
    License := "GPL" }

/-- A collection with an XDP program, two instrumented functions, a syscall
tracepoint and a program nothing refers to. -/
def sampleColl : Programs :=
  [("xdp_proxy", loadedSpec "xdp_proxy"), ("c_TcpSendmsg", loadedSpec "c_TcpSendmsg"),
   ("c_NetDevQueue", loadedSpec "c_NetDevQueue"),
   ("tracepoint__syscalls__sys_enter_read", loadedSpec "sys_enter_read"),
   ("ip_rcv_core", loadedSpec "ip_rcv_core")]

/-- An embedded directory of an ubuntu 20.04 archive; the last file has no `.btf`. -/
def sampleBtfDir : List DirEntry :=
  [{ Name := goString "5.4.0-42-generic.btf.tar.xz" }, { Name := goString "5.4.0-90-generic.btf" },
   { Name := goString "5.8.0-63-generic.btf" }, { Name := goString "README" }]

/-- An ubuntu 20.04 machine without native BTF whose embedded directory is
`sampleBtfDir`; the content of a file is its path. -/
def sampleBtfEnv (release : String) : BtfEnv :=
  { IsKernelSupportHasBTF := false
    Vendor := goString "ubuntu"
    OSArchitecture := goString "amd64"
    OSRelease := goString "20.04.6 LTS (Focal Fossa)"
    KernelArchitecture := goString "x86_64"
    KernelRelease := goString release
    ReadDir := fun path =>
      if path = goString "custom-archive/ubuntu/20.04/x86_64" then some sampleBtfDir else none
    ReadFile := fun path => some path }

theorem byteAt_take (r : List Byte) (n i : Nat) (h : i < n) :
    byteAt (r.take n) i = byteAt r i := by
  simp [byteAt, List.getD_eq_getElem?_getD, List.getElem?_take, h]

theorem leUint_take (r : List Byte) (n k off : Nat) (h : off + k ≤ n) :
    leUint (r.take n) off k = leUint r off k := by
  induction k generalizing off with
  | zero => rfl
  | succ k ih =>
    simp only [leUint]
    rw [byteAt_take r n off (by omega), ih (off + 1) (by omega)]

theorem byteAt_lt (buf : List Byte) (i : Nat) : byteAt buf i < 256 := by
  unfold byteAt
  exact (buf.getD i 0).isLt

theorem leUint_lt (buf : List Byte) (off k : Nat) : leUint buf off k < 256 ^ k := by
  induction k generalizing off with
  | zero => simp [leUint]
  | succ k ih =>
    have h1 := byteAt_lt buf off
    have h2 := ih (off + 1)
    simp only [leUint, pow_succ]
    nlinarith

theorem binaryRead_short {α : Type} (size : Nat) (d : Dec α) (r : List Byte)
    (h : r.length < size) :
    binaryRead size d r = .error (if r.length = 0 then .EOF else .ErrUnexpectedEOF) := by
  unfold binaryRead
  have h0 : size ≠ 0 := by omega
  by_cases hl : r.length = 0 <;> simp [h0, hl, h]

theorem binaryRead_full {α : Type} (size : Nat) (d : Dec α) (r : List Byte)
    (h : size ≤ r.length) :
    binaryRead size d r = .ok (d (r.take size) 0).1 := by
  unfold binaryRead
  by_cases h0 : size = 0
  · simp [h0]
  · have h1 : r.length ≠ 0 := by omega
    have h2 : ¬ r.length < size := by omega
    simp [h0, h1, h2]

theorem binaryRead_ok_length {α : Type} (size : Nat) (d : Dec α) (r : List Byte) (v : α)
    (h : binaryRead size d r = .ok v) : size ≤ r.length := by
  by_contra hlt
  rw [binaryRead_short size d r (by omega)] at h
  cases h

theorem sliceFrom_le (s : List Byte) (lo : Nat) (h : lo ≤ s.length) :
    sliceFrom s lo = some (s.drop lo) := by
  simp [sliceFrom, h]

theorem sizeofSyscallEvent_eq : sizeofSyscallEvent = 68 := rfl

theorem headerSize_syscall : unsafeSizeofSyscallEvent - 4 = 68 := by decide

theorem sliceFrom_gt (s : List Byte) (lo : Nat) (h : s.length < lo) :
    sliceFrom s lo = none := by
  have : ¬ lo ≤ s.length := by omega
  simp [sliceFrom, this]

/-! ## Lemmas on the shard index -/

/-- For a key below `2^63` and a positive processor count the Go expression
`int(tgidFd) % processorsNum` is the remainder of the unsigned key. -/
theorem goRem_goInt_of_lt (key : Nat) (N : Nat) (hk : key < 2 ^ 63) (hN : 1 ≤ N) :
    goRem (goInt key) (N : Int) = some ((key % N : Nat) : Int) := by
  have hN0 : (N : Int) ≠ 0 := by omega
  have h1 : key % 2 ^ 64 = key := Nat.mod_eq_of_lt (by omega)
  simp only [goRem, goInt, toSigned, hN0, if_false, h1]
  have h2 : key < 2 ^ (64 - 1) := by simpa using hk
  simp only [h2, if_true]
  rw [Int.ofNat_tmod]

/-- The key `handleConnEvt` rebuilds from `Pid` and a non-negative `Fd` is
`pid * 2^32 + fd`, the key the kernel supplies for the same connection. -/
theorem connKey_of_nonneg_fd (pid : Nat) (fd : Nat) (hp : pid < 2 ^ 32) (hf : fd < 2 ^ 31) :
    ((pid <<< 32) % 2 ^ 64) ||| toUnsigned 64 (fd : Int) = pid * 2 ^ 32 + fd := by
  have h1 : (pid <<< 32) % 2 ^ 64 = 2 ^ 32 * pid := by
    rw [Nat.shiftLeft_eq, Nat.mod_eq_of_lt (by omega)]
    ring
  have h2 : toUnsigned 64 (fd : Int) = fd := by
    unfold toUnsigned
    have : ((fd : Int) % 2 ^ 64) = (fd : Int) := Int.emod_eq_of_lt (by omega) (by omega)
    rw [this]
    simp
  rw [h1, h2, ← Nat.mul_add_lt_is_or (by omega) pid]
  ring

/-! ## Sharding -/

/-- C1 (code defect). For the key `2^63 + 1` and two processors the three
handlers that take the kernel-supplied key ask for processor `-1`, while the
remainder of the unsigned key is `1`: `int(tgidFd)` is negative for a key with
its top bit set, and Go's `%` keeps the sign of the dividend. -/
theorem handlers_high_key_index :
    leUint (kernRecordWithKey highKeyBytes) 40 8 = 2 ^ 63 + 1
    ∧ (2 ^ 63 + 1) % 2 = 1
    ∧ (handleKernEvt (kernRecordWithKey highKeyBytes) 2 false).trace.head?
        = some (.getProcessor (-1))
    ∧ (handleSyscallEvt (kernRecordWithKey highKeyBytes ++ [0, 0, 0, 0]) 2 false).trace.head?
        = some (.getProcessor (-1))
    ∧ (handleSslDataEvt sslLayout80
        (kernRecordWithKey highKeyBytes ++ List.replicate 16 0) 2 false).trace.head?
        = some (.getProcessor (-1)) := by
  refine ⟨by decide, by decide, by decide, by decide, by decide⟩

/-- C2 (code defect). For pid `1`, fd `-1` and two processors `handleConnEvt`
asks for processor `-1`, while `handleKernEvt` on the kernel key of the same
connection, `1 * 2^32 + (2^32 - 1)`, asks for processor `1`: `uint64(Fd)`
sign-extends the negative `int32`. -/
theorem connEvt_negative_fd_index :
    (binaryRead sizeofConnEvt decConnEvt connRecordNegFd).toOption.map
        (fun e => (e.ConnInfo.ConnId.Upid.Pid, e.ConnInfo.ConnId.Fd)) = some (1, -1)
    ∧ leUint (kernRecordWithKey negFdKeyBytes) 40 8 = 1 * 2 ^ 32 + (2 ^ 32 - 1)
    ∧ (handleConnEvt connRecordNegFd 2 false).trace.head? = some (.getProcessor (-1))
    ∧ (handleKernEvt (kernRecordWithKey negFdKeyBytes) 2 false).trace.head?
        = some (.getProcessor 1) := by
  refine ⟨by decide, by decide, by decide, by decide⟩

/-! ## Options -/

/-- C3 (counterexample). A request of `0` processors on a 4-CPU machine gives
4 shards, not `max(1, 0) = 1`; a request of `-3` gives `-3`, not `max(1, -3) = 1`. -/
theorem validateAndRepairOptions_not_max :
    (validateAndRepairOptions 4 { zeroOptions with ProcessorsNum := 0 }).ProcessorsNum = 4
    ∧ (validateAndRepairOptions 4 { zeroOptions with ProcessorsNum := 0 }).ProcessorsNum
        ≠ max 1 0
    ∧ (validateAndRepairOptions 4 { zeroOptions with ProcessorsNum := -3 }).ProcessorsNum = -3
    ∧ (validateAndRepairOptions 4 { zeroOptions with ProcessorsNum := -3 }).ProcessorsNum
        ≠ max 1 (-3) := by
  refine ⟨by decide, by decide, by decide, by decide⟩

/-- C3 (amended). For a request `r ≥ 1` the repaired options keep
`ProcessorsNum = r = max(1, r)`; for `r = 0` they take `runtime.NumCPU()`; so
with at least one CPU every request `r ≥ 0` yields at least one shard. -/
theorem validateAndRepairOptions_processorsNum (numCPU : Int) (options : AgentOptions)
    (hcpu : 1 ≤ numCPU) (hr : 0 ≤ options.ProcessorsNum) :
    (validateAndRepairOptions numCPU options).ProcessorsNum
        = (if options.ProcessorsNum = 0 then numCPU else max 1 options.ProcessorsNum)
    ∧ 1 ≤ (validateAndRepairOptions numCPU options).ProcessorsNum := by
  have key : (validateAndRepairOptions numCPU options).ProcessorsNum
      = (if options.ProcessorsNum = 0 then numCPU else options.ProcessorsNum) := by
    rfl
  rw [key]
  by_cases h0 : options.ProcessorsNum = 0
  · simp [h0, hcpu]
  · have h1 : 1 ≤ options.ProcessorsNum := by omega
    simp [h0, h1]

/-- C3 (amended) at a request of 3 processors on an 8-CPU machine. -/
theorem validateAndRepairOptions_processorsNum_witness :
    (validateAndRepairOptions 8 { zeroOptions with ProcessorsNum := 3 }).ProcessorsNum
        = (if (3 : Int) = 0 then 8 else max 1 3)
    ∧ 1 ≤ (validateAndRepairOptions 8 { zeroOptions with ProcessorsNum := 3 }).ProcessorsNum :=
  validateAndRepairOptions_processorsNum 8 { zeroOptions with ProcessorsNum := 3 }
    (by decide) (by decide)

/-! ## Decoding -/

/-- C4 (counterexample). A syscall record and an SSL record whose headers
decode with `buf_size = 2` but which carry one payload byte are not accepted:
each handler returns `io.ErrUnexpectedEOF` and dispatches nothing. -/
theorem truncated_payload_is_an_error :
    (binaryRead sizeofSyscallEvent decSyscallEvent
        (List.replicate 64 0 ++ [2, 0, 0, 0] ++ [9])).toOption.map (fun h => h.BufSize) = some 2
    ∧ handleSyscallEvt (List.replicate 64 0 ++ [2, 0, 0, 0] ++ [9]) 1 true
        = { ret := .err .ErrUnexpectedEOF, trace := [] }
    ∧ (binaryRead (sizeofSslEventHeader sslLayout80) (decSslEventHeader sslLayout80)
        (List.replicate 76 0 ++ [2, 0, 0, 0] ++ [9])).toOption.map (fun h => h.BufSize) = some 2
    ∧ handleSslDataEvt sslLayout80 (List.replicate 76 0 ++ [2, 0, 0, 0] ++ [9]) 1 true
        = { ret := .err .ErrUnexpectedEOF, trace := [] } := by
  refine ⟨by decide, by decide, by decide, by decide⟩

/-- C4 (amended). A record whose header decodes but which carries fewer
payload bytes than the declared `buf_size` is rejected: `handleSyscallEvt`
returns `io.EOF` when no payload byte follows the header and
`io.ErrUnexpectedEOF` otherwise; `handleSslDataEvt` does the same from the
in-memory size of its header on, and panics on the slice expression when the
record does not reach that size; no hook is invoked and no event is added. -/
theorem truncated_payload_rejected (L : SslLayout) (record : List Byte) (processorsNum : Int)
    (hookSet : Bool) :
    (∀ hdr : SyscallEvent,
      binaryRead sizeofSyscallEvent decSyscallEvent record = .ok hdr →
      record.length - (unsafeSizeofSyscallEvent - 4) < hdr.BufSize →
      handleSyscallEvt record processorsNum hookSet =
        { ret := .err (if record.length = unsafeSizeofSyscallEvent - 4 then .EOF
                       else .ErrUnexpectedEOF),
          trace := [] })
    ∧ (∀ hdr : SslEventHeader,
      binaryRead (sizeofSslEventHeader L) (decSslEventHeader L) record = .ok hdr →
      record.length - L.memSize < hdr.BufSize →
      handleSslDataEvt L record processorsNum hookSet =
        { ret := if record.length < L.memSize then .panic .sliceBounds
                 else .err (if record.length = L.memSize then .EOF else .ErrUnexpectedEOF),
          trace := [] }) := by
  constructor
  · intro hdr hdec htrunc
    have hlen := binaryRead_ok_length _ _ _ _ hdec
    rw [headerSize_syscall, ← sizeofSyscallEvent_eq] at htrunc ⊢
    have hpos : hdr.BufSize > 0 := by omega
    have hshort : (record.drop sizeofSyscallEvent).length < hdr.BufSize := by
      simpa using htrunc
    unfold handleSyscallEvt
    rw [hdec]
    simp only [hpos, if_true, headerSize_syscall, ← sizeofSyscallEvent_eq,
      sliceFrom_le record _ hlen,
      binaryRead_short _ _ _ hshort]
    simp only [List.length_drop]
    have : (record.length - sizeofSyscallEvent = 0) ↔ (record.length = sizeofSyscallEvent) := by
      omega
    simp only [this]
  · intro hdr hdec htrunc
    unfold handleSslDataEvt
    rw [hdec]
    by_cases hm : record.length < L.memSize
    · simp only [sliceFrom_gt record _ hm, hm, if_true]
    · have hle : L.memSize ≤ record.length := by omega
      have hshort : (record.drop L.memSize).length < hdr.BufSize := by
        simpa using htrunc
      simp only [sliceFrom_le record _ hle, binaryRead_short _ _ _ hshort, hm, if_false]
      simp only [List.length_drop]
      have : (record.length - L.memSize = 0) ↔ (record.length = L.memSize) := by
        omega
      simp only [this]

/-- C4 (amended) at a syscall record with one of two declared payload bytes and
an SSL record with none of two. -/
theorem truncated_payload_rejected_witness :
    handleSyscallEvt (List.replicate 64 0 ++ [2, 0, 0, 0] ++ [9]) 1 true
        = { ret := .err .ErrUnexpectedEOF, trace := [] }
    ∧ handleSslDataEvt sslLayout80 (List.replicate 76 0 ++ [2, 0, 0, 0]) 1 true
        = { ret := .err .EOF, trace := [] } :=
  ⟨(truncated_payload_rejected sslLayout80 (List.replicate 64 0 ++ [2, 0, 0, 0] ++ [9]) 1 true).1
      ((decSyscallEvent (List.replicate 64 0 ++ [2, 0, 0, 0]) 0).1) (by decide) (by decide),
   (truncated_payload_rejected sslLayout80 (List.replicate 76 0 ++ [2, 0, 0, 0]) 1 true).2
      ((decSslEventHeader sslLayout80 (List.replicate 76 0 ++ [2, 0, 0, 0]) 0).1)
      (by decide) (by decide)⟩

/-- C5. A record shorter than the fixed header of its source makes the handler
return a non-nil error (`io.EOF` for an empty record, `io.ErrUnexpectedEOF`
otherwise) with an empty trace: no hook call, no event added. -/
theorem short_header_skipped (L : SslLayout) (record : List Byte) (processorsNum : Int)
    (hookSet : Bool) :
    (record.length < sizeofConnEvt →
      handleConnEvt record processorsNum hookSet =
        { ret := .err (if record.length = 0 then .EOF else .ErrUnexpectedEOF), trace := [] })
    ∧ (record.length < sizeofSslEventHeader L →
      handleSslDataEvt L record processorsNum hookSet =
        { ret := .err (if record.length = 0 then .EOF else .ErrUnexpectedEOF), trace := [] })
    ∧ (record.length < sizeofSyscallEvent →
      handleSyscallEvt record processorsNum hookSet =
        { ret := .err (if record.length = 0 then .EOF else .ErrUnexpectedEOF), trace := [] })
    ∧ (record.length < sizeofKernEvt →
      handleKernEvt record processorsNum hookSet =
        { ret := .err (if record.length = 0 then .EOF else .ErrUnexpectedEOF), trace := [] }) := by
  refine ⟨fun h => ?_, fun h => ?_, fun h => ?_, fun h => ?_⟩
  · unfold handleConnEvt; rw [binaryRead_short _ _ _ h]
  · unfold handleSslDataEvt; rw [binaryRead_short _ _ _ h]
  · unfold handleSyscallEvt; rw [binaryRead_short _ _ _ h]
  · unfold handleKernEvt; rw [binaryRead_short _ _ _ h]

/-- C5 at a three-byte record and at the empty record. -/
theorem short_header_skipped_witness :
    handleConnEvt [1, 2, 3] 4 true = { ret := .err .ErrUnexpectedEOF, trace := [] }
    ∧ handleSslDataEvt sslLayout80 [1, 2, 3] 4 true
        = { ret := .err .ErrUnexpectedEOF, trace := [] }
    ∧ handleSyscallEvt [1, 2, 3] 4 true = { ret := .err .ErrUnexpectedEOF, trace := [] }
    ∧ handleKernEvt [] 4 true = { ret := .err .EOF, trace := [] } :=
  ⟨(short_header_skipped sslLayout80 [1, 2, 3] 4 true).1 (by decide),
   (short_header_skipped sslLayout80 [1, 2, 3] 4 true).2.1 (by decide),
   (short_header_skipped sslLayout80 [1, 2, 3] 4 true).2.2.1 (by decide),
   (short_header_skipped sslLayout80 [] 4 true).2.2.2 (by decide)⟩

theorem decKernEvt_fields (buf : List Byte) :
    (decKernEvt buf 0).1 =
      { FuncName := (List.range 16).map (fun i => toSigned 8 (leUint buf i 1)),
        Ts := leUint buf 16 8, Seq := leUint buf 24 8, Len := leUint buf 32 4,
        Flags := leUint buf 36 1,
        ConnIdS := { TgidFd := leUint buf 40 8, NoTrace := decide (byteAt buf 48 ≠ 0) },
        IsSample := toSigned 32 (leUint buf 56 4), Step := leUint buf 60 4 } := rfl

/-- The decoder of each record type consumes exactly the `dataSize` of the type. -/
theorem decKernEvt_offset (buf : List Byte) : (decKernEvt buf 0).2 = sizeofKernEvt := rfl

theorem decConnEvt_fields (buf : List Byte) :
    (decConnEvt buf 0).1 =
      { ConnInfo :=
          { ConnId :=
              { Upid := { Pid := leUint buf 0 4, StartTimeTicks := leUint buf 8 8 },
                Fd := toSigned 32 (leUint buf 16 4),
                Tsid := leUint buf 24 8 },
            ReadBytes := leUint buf 32 8,
            WriteBytes := leUint buf 40 8,
            SslReadBytes := leUint buf 48 8,
            SslWriteBytes := leUint buf 56 8,
            Laddr := { In6 :=
              { Sin6Family := leUint buf 64 2, Sin6Port := leUint buf 66 2,
                Sin6Flowinfo := leUint buf 68 4,
                Sin6Addr :=
                  { In6U := { U6Addr8 := (List.range 16).map (fun i => leUint buf (72 + i) 1) } },
                Sin6ScopeId := leUint buf 88 4 } },
            Raddr := { In6 :=
              { Sin6Family := leUint buf 92 2, Sin6Port := leUint buf 94 2,
                Sin6Flowinfo := leUint buf 96 4,
                Sin6Addr :=
                  { In6U := { U6Addr8 := (List.range 16).map (fun i => leUint buf (100 + i) 1) } },
                Sin6ScopeId := leUint buf 116 4 } },
            Protocol := leUint buf 120 4,
            Role := leUint buf 124 4,
            PrevCount := leUint buf 128 8,
            PrevBuf := (List.range 4).map (fun i => toSigned 8 (leUint buf (136 + i) 1)),
            PrependLengthHeader := decide (byteAt buf 140 ≠ 0),
            NoTrace := decide (byteAt buf 141 ≠ 0),
            Ssl := decide (byteAt buf 142 ≠ 0) },
        ConnType := leUint buf 144 4,
        Ts := leUint buf 152 8 } := rfl

theorem decConnEvt_offset (buf : List Byte) : (decConnEvt buf 0).2 = sizeofConnEvt := rfl

theorem decSyscallEvent_offset (buf : List Byte) :
    (decSyscallEvent buf 0).2 = sizeofSyscallEvent := rfl

theorem decSslEventHeader_offset (L : SslLayout) (buf : List Byte) :
    (decSslEventHeader L buf 0).2 = sizeofSslEventHeader L := rfl


theorem leUint_one (buf : List Byte) (off : Nat) : leUint buf off 1 = byteAt buf off := by
  simp [leUint]

theorem map_range_take (r : List Byte) (n k base : Nat) (f : Nat → Int) (h : base + k ≤ n) :
    (List.range k).map (fun i => f (leUint (r.take n) (base + i) 1))
      = (List.range k).map (fun i => f (byteAt r (base + i))) := by
  apply List.map_congr_left
  intro i hi
  have hi2 : i < k := List.mem_range.mp hi
  rw [leUint_one, byteAt_take r n (base + i) (by omega)]

/-- C6. The kernel-step header is 64 bytes, decoded little-endian at the
offsets of the spec; `handleKernEvt` returns an error exactly for records
shorter than 64 bytes and its run depends only on the first 64 bytes. -/
theorem kernEvt_header_layout (record : List Byte) (processorsNum : Int) (hookSet : Bool) :
    sizeofKernEvt = 64
    ∧ (64 ≤ record.length →
        binaryRead sizeofKernEvt decKernEvt record = .ok
          { FuncName := (List.range 16).map (fun i => toSigned 8 (byteAt record i)),
            Ts := leUint record 16 8,
            Seq := leUint record 24 8,
            Len := leUint record 32 4,
            Flags := byteAt record 36,
            ConnIdS := { TgidFd := leUint record 40 8, NoTrace := decide (byteAt record 48 ≠ 0) },
            IsSample := toSigned 32 (leUint record 56 4),
            Step := leUint record 60 4 })
    ∧ ((∃ e, (handleKernEvt record processorsNum hookSet).ret = .err e) ↔ record.length < 64)
    ∧ handleKernEvt (record.take 64) processorsNum hookSet
        = handleKernEvt record processorsNum hookSet := by
  have hsz : sizeofKernEvt = 64 := rfl
  refine ⟨hsz, ?_, ?_, ?_⟩
  · intro hlen
    rw [binaryRead_full _ _ _ (by rw [hsz]; exact hlen), hsz]
    have hfn := map_range_take record 64 16 0 (toSigned 8) (by omega)
    simp only [Nat.zero_add] at hfn
    rw [decKernEvt_fields, hfn, leUint_one, byteAt_take record 64 36 (by omega),
      byteAt_take record 64 48 (by omega),
      leUint_take record 64 8 16 (by omega), leUint_take record 64 8 24 (by omega),
      leUint_take record 64 4 32 (by omega), leUint_take record 64 8 40 (by omega),
      leUint_take record 64 4 56 (by omega), leUint_take record 64 4 60 (by omega)]
  · constructor
    · rintro ⟨e, he⟩
      by_contra hge
      have hlen : sizeofKernEvt ≤ record.length := by rw [hsz]; omega
      unfold handleKernEvt at he
      rw [binaryRead_full _ _ _ hlen] at he
      simp only [dispatch] at he
      split at he <;> cases he
    · intro hlt
      refine ⟨if record.length = 0 then .EOF else .ErrUnexpectedEOF, ?_⟩
      unfold handleKernEvt
      rw [binaryRead_short _ _ _ (by rw [hsz]; exact hlt)]
  · by_cases hlt : record.length < 64
    · rw [List.take_of_length_le (by omega)]
    · have hlen : sizeofKernEvt ≤ record.length := by rw [hsz]; omega
      have hlen2 : sizeofKernEvt ≤ (record.take 64).length := by
        rw [hsz, List.length_take]; omega
      unfold handleKernEvt
      rw [binaryRead_full _ _ _ hlen, binaryRead_full _ _ _ hlen2, hsz, List.take_take]
      simp


/-- C6 at a 64-byte record (the key at offset 40) and at a three-byte record. -/
theorem kernEvt_header_layout_witness :
    (binaryRead sizeofKernEvt decKernEvt (kernRecordWithKey highKeyBytes)).toOption.map
        (fun e => e.ConnIdS.TgidFd) = some (leUint (kernRecordWithKey highKeyBytes) 40 8)
    ∧ (∃ e, (handleKernEvt [1, 2, 3] 1 false).ret = .err e) := by
  refine ⟨?_, (kernEvt_header_layout [1, 2, 3] 1 false).2.2.1.mpr (by decide)⟩
  rw [(kernEvt_header_layout (kernRecordWithKey highKeyBytes) 1 false).2.1 (by decide)]
  rfl

theorem decSyscallEvent_fields (buf : List Byte) :
    (decSyscallEvent buf 0).1 = { Ke := (decKernEvt buf 0).1, BufSize := leUint buf 64 4 } := rfl

theorem dispatch_of_ne_zero {E : Type} (tgidFd : Nat) (processorsNum : Int) (hookSet : Bool)
    (event : E) (hN : processorsNum ≠ 0) :
    dispatch tgidFd processorsNum hookSet event =
      { ret := .nil
        trace := [.getProcessor (Int.tmod (goInt tgidFd) processorsNum)]
          ++ (if hookSet then [.hook event] else [])
          ++ [.add (Int.tmod (goInt tgidFd) processorsNum) event] } := by
  simp [dispatch, goRem, hN]

theorem handleSyscallEvt_full (record : List Byte) (processorsNum : Int) (hookSet : Bool)
    (hdr : SyscallEvent)
    (hdec : binaryRead sizeofSyscallEvent decSyscallEvent record = .ok hdr)
    (hlen : 68 + hdr.BufSize ≤ record.length) :
    handleSyscallEvt record processorsNum hookSet =
      dispatch hdr.Ke.ConnIdS.TgidFd processorsNum hookSet
        { SyscallEvent := hdr, Buf := (record.drop 68).take hdr.BufSize } := by
  unfold handleSyscallEvt
  rw [hdec]
  by_cases hpos : hdr.BufSize > 0
  · have hfull : hdr.BufSize ≤ (record.drop 68).length := by
      rw [List.length_drop]; omega
    simp only [hpos, if_true, headerSize_syscall, sliceFrom_le record 68 (by omega),
      binaryRead_full _ _ _ hfull, Dec.bytes, List.drop_zero, List.take_take, Nat.min_self]
  · have h0 : hdr.BufSize = 0 := by omega
    simp [h0]

/-- C7. When the header decodes with `buf_size = n` (the `u32` at offset 64)
and at least `n` bytes follow it, `handleSyscallEvt` (with a non-zero
processor count) dispatches an event whose `Buf` is `record[68 : 68+n]`, where
`68` is the KernEvt size plus 4 and also `unsafe.Sizeof(event.SyscallEvent) - 4`;
the bytes after them do not matter, and for `n = 0` `Buf` is empty and only
the 68 header bytes matter. -/
theorem syscall_payload (record : List Byte) (processorsNum : Int) (hookSet : Bool)
    (hdr : SyscallEvent)
    (hdec : binaryRead sizeofSyscallEvent decSyscallEvent record = .ok hdr)
    (hlen : 68 + hdr.BufSize ≤ record.length) (hN : processorsNum ≠ 0) :
    sizeofKernEvt + 4 = 68
    ∧ unsafeSizeofSyscallEvent - 4 = 68
    ∧ hdr.BufSize = leUint record 64 4
    ∧ (∃ idx : Int, handleSyscallEvt record processorsNum hookSet =
        { ret := .nil
          trace := [.getProcessor idx]
            ++ (if hookSet then
                  [.hook { SyscallEvent := hdr, Buf := (record.drop 68).take hdr.BufSize }]
                else [])
            ++ [.add idx { SyscallEvent := hdr, Buf := (record.drop 68).take hdr.BufSize }] })
    ∧ handleSyscallEvt (record.take (68 + hdr.BufSize)) processorsNum hookSet
        = handleSyscallEvt record processorsNum hookSet
    ∧ (hdr.BufSize = 0 → (record.drop 68).take hdr.BufSize = []
        ∧ handleSyscallEvt (record.take 68) processorsNum hookSet
            = handleSyscallEvt record processorsNum hookSet) := by
  have h68 : sizeofSyscallEvent ≤ record.length := by rw [sizeofSyscallEvent_eq]; omega
  have hhdr : hdr = (decSyscallEvent (record.take 68) 0).1 := by
    rw [binaryRead_full _ _ _ h68] at hdec
    cases hdec
    rfl
  have htake : handleSyscallEvt (record.take (68 + hdr.BufSize)) processorsNum hookSet
      = handleSyscallEvt record processorsNum hookSet := by
    have hl : (record.take (68 + hdr.BufSize)).length = 68 + hdr.BufSize := by
      rw [List.length_take]; omega
    have hdec2 : binaryRead sizeofSyscallEvent decSyscallEvent (record.take (68 + hdr.BufSize))
        = .ok hdr := by
      rw [binaryRead_full _ _ _ (by rw [sizeofSyscallEvent_eq, hl]; omega), sizeofSyscallEvent_eq,
        List.take_take, Nat.min_eq_left (by omega), ← hhdr]
    rw [handleSyscallEvt_full _ _ _ hdr hdec2 (by rw [hl]),
      handleSyscallEvt_full _ _ _ hdr hdec hlen, List.drop_take, List.take_take]
    simp
  refine ⟨rfl, headerSize_syscall, ?_, ?_, htake, ?_⟩
  · rw [hhdr, decSyscallEvent_fields, leUint_take record 68 4 64 (by omega)]
  · exact ⟨_, by rw [handleSyscallEvt_full _ _ _ hdr hdec hlen, dispatch_of_ne_zero _ _ _ _ hN]⟩
  · intro h0
    refine ⟨by simp [h0], ?_⟩
    have := htake
    rw [h0] at this
    exact this


/-- C7 at a record with `buf_size = 2` and three bytes after the header. -/
theorem syscall_payload_witness :
    (syscallRecordSample.drop 68).take 2 = [9, 8]
    ∧ ∃ idx : Int, handleSyscallEvt syscallRecordSample 2 false =
        { ret := .nil
          trace := [.getProcessor idx]
            ++ (if false then
                  [.hook { SyscallEvent := (decSyscallEvent syscallRecordSample 0).1,
                           Buf := (syscallRecordSample.drop 68).take
                             (decSyscallEvent syscallRecordSample 0).1.BufSize }]
                else [])
            ++ [.add idx { SyscallEvent := (decSyscallEvent syscallRecordSample 0).1,
                           Buf := (syscallRecordSample.drop 68).take
                             (decSyscallEvent syscallRecordSample 0).1.BufSize }] } :=
  ⟨by decide,
   (syscall_payload syscallRecordSample 2 false (decSyscallEvent syscallRecordSample 0).1
      (by decide) (by decide) (by decide)).2.2.2.1⟩

/-- C8. The connection record is `ConnInfo` (144 bytes) followed by
`conn_type` and `timestamp`, 160 bytes in all, decoded little-endian at the
offsets of the spec; `handleConnEvt` returns an error exactly for records
shorter than 160 bytes. -/
theorem connEvt_layout (record : List Byte) (processorsNum : Int) (hookSet : Bool) :
    sizeofConnInfo = 144
    ∧ sizeofConnEvt = 160
    ∧ (160 ≤ record.length →
        binaryRead sizeofConnEvt decConnEvt record = .ok
          { ConnInfo :=
              { ConnId :=
                  { Upid := { Pid := leUint record 0 4, StartTimeTicks := leUint record 8 8 },
                    Fd := toSigned 32 (leUint record 16 4),
                    Tsid := leUint record 24 8 },
                ReadBytes := leUint record 32 8,
                WriteBytes := leUint record 40 8,
                SslReadBytes := leUint record 48 8,
                SslWriteBytes := leUint record 56 8,
                Laddr := { In6 :=
                  { Sin6Family := leUint record 64 2, Sin6Port := leUint record 66 2,
                    Sin6Flowinfo := leUint record 68 4,
                    Sin6Addr :=
                      { In6U := { U6Addr8 := (List.range 16).map (fun i => byteAt record (72 + i)) } },
                    Sin6ScopeId := leUint record 88 4 } },
                Raddr := { In6 :=
                  { Sin6Family := leUint record 92 2, Sin6Port := leUint record 94 2,
                    Sin6Flowinfo := leUint record 96 4,
                    Sin6Addr :=
                      { In6U := { U6Addr8 := (List.range 16).map (fun i => byteAt record (100 + i)) } },
                    Sin6ScopeId := leUint record 116 4 } },
                Protocol := leUint record 120 4,
                Role := leUint record 124 4,
                PrevCount := leUint record 128 8,
                PrevBuf := (List.range 4).map (fun i => toSigned 8 (byteAt record (136 + i))),
                PrependLengthHeader := decide (byteAt record 140 ≠ 0),
                NoTrace := decide (byteAt record 141 ≠ 0),
                Ssl := decide (byteAt record 142 ≠ 0) },
            ConnType := leUint record 144 4,
            Ts := leUint record 152 8 })
    ∧ ((∃ e, (handleConnEvt record processorsNum hookSet).ret = .err e) ↔ record.length < 160) := by
  have hsz : sizeofConnEvt = 160 := rfl
  refine ⟨rfl, hsz, ?_, ?_⟩
  · intro hlen
    rw [binaryRead_full _ _ _ (by rw [hsz]; exact hlen), hsz]
    have hl2 : (List.range 16).map (fun i => leUint (record.take 160) (72 + i) 1)
        = (List.range 16).map (fun i => byteAt record (72 + i)) := by
      apply List.map_congr_left
      intro i hi
      have hi2 : i < 16 := List.mem_range.mp hi
      rw [leUint_one, byteAt_take record 160 (72 + i) (by omega)]
    have hr2 : (List.range 16).map (fun i => leUint (record.take 160) (100 + i) 1)
        = (List.range 16).map (fun i => byteAt record (100 + i)) := by
      apply List.map_congr_left
      intro i hi
      have hi2 : i < 16 := List.mem_range.mp hi
      rw [leUint_one, byteAt_take record 160 (100 + i) (by omega)]
    have hp := map_range_take record 160 4 136 (toSigned 8) (by omega)
    rw [decConnEvt_fields, hl2, hr2, hp,
      byteAt_take record 160 140 (by omega), byteAt_take record 160 141 (by omega),
      byteAt_take record 160 142 (by omega),
      leUint_take record 160 4 0 (by omega), leUint_take record 160 8 8 (by omega),
      leUint_take record 160 4 16 (by omega), leUint_take record 160 8 24 (by omega),
      leUint_take record 160 8 32 (by omega), leUint_take record 160 8 40 (by omega),
      leUint_take record 160 8 48 (by omega), leUint_take record 160 8 56 (by omega),
      leUint_take record 160 2 64 (by omega), leUint_take record 160 2 66 (by omega),
      leUint_take record 160 4 68 (by omega), leUint_take record 160 4 88 (by omega),
      leUint_take record 160 2 92 (by omega), leUint_take record 160 2 94 (by omega),
      leUint_take record 160 4 96 (by omega), leUint_take record 160 4 116 (by omega),
      leUint_take record 160 4 120 (by omega), leUint_take record 160 4 124 (by omega),
      leUint_take record 160 8 128 (by omega), leUint_take record 160 4 144 (by omega),
      leUint_take record 160 8 152 (by omega)]
  · constructor
    · rintro ⟨e, he⟩
      by_contra hge
      have hlen : sizeofConnEvt ≤ record.length := by rw [hsz]; omega
      unfold handleConnEvt at he
      rw [binaryRead_full _ _ _ hlen] at he
      simp only [dispatch] at he
      split at he <;> cases he
    · intro hlt
      refine ⟨if record.length = 0 then .EOF else .ErrUnexpectedEOF, ?_⟩
      unfold handleConnEvt
      rw [binaryRead_short _ _ _ (by rw [hsz]; exact hlt)]

/-- C8 at a 160-byte record (the fd at offset 16) and at a 159-byte record. -/
theorem connEvt_layout_witness :
    (binaryRead sizeofConnEvt decConnEvt connRecordNegFd).toOption.map
        (fun e => e.ConnInfo.ConnId.Fd) = some (toSigned 32 (leUint connRecordNegFd 16 4))
    ∧ (∃ e, (handleConnEvt (List.replicate 159 0) 1 false).ret = .err e) := by
  refine ⟨?_, (connEvt_layout (List.replicate 159 0) 1 false).2.2.2.mpr (by decide)⟩
  rw [(connEvt_layout connRecordNegFd 1 false).2.2.1 (by decide)]
  rfl

/-! ## Filter parameters -/

/-- C9 (code defect). The remote-port list `["70000"]` and the local-port list
`["65536"]` are accepted: the call returns `true` and writes the keys
`70000 mod 65536 = 4464` and `65536 mod 65536 = 0`, because only `err != nil`
and `portInt <= 0` are tested before `uint16(portInt)`. -/
theorem port_above_65535_accepted :
    strconvAtoi "70000" = some 70000
    ∧ setAndValidateParameters (fun _ => none)
        { FilterPid := 0, RemotePorts := ["70000"], RemoteIps := [], LocalPorts := [] }
        FilterMaps.empty
      = (true, { ControlValues := [], EnabledRemotePortMap := [(4464, 0), (1, 0)],
                 EnabledRemoteIpv4Map := [], EnabledLocalPortMap := [] })
    ∧ setAndValidateParameters (fun _ => none)
        { FilterPid := 0, RemotePorts := [], RemoteIps := [], LocalPorts := ["65536"] }
        FilterMaps.empty
      = (true, { ControlValues := [], EnabledRemotePortMap := [],
                 EnabledRemoteIpv4Map := [], EnabledLocalPortMap := [(0, 0), (1, 1)] }) := by
  refine ⟨by decide, by decide, by decide⟩

theorem has_Update (m : BpfMap) (k v k2 : Nat) :
    (m.Update k v).has k2 = (k2 == k || m.has k2) := by
  unfold BpfMap.Update BpfMap.has
  by_cases h : k2 = k
  · subst h; simp
  · simp only [List.any_cons, List.any_filter]
    have h1 : (k == k2) = false := by simp; omega
    have h2 : (k2 == k) = false := by simp [h]
    simp only [h1, h2, Bool.false_or]
    congr 1
    funext e
    by_cases he : e.1 = k2
    · subst he; simp [h]
    · simp [he]

theorem portLoop_has (m : BpfMap) (l : List String) (k : Nat) (h : m.has k = true) :
    (portLoop m l).2.has k = true := by
  induction l generalizing m with
  | nil => simpa [portLoop] using h
  | cons e rest ih =>
    unfold portLoop
    split
    · exact h
    · split
      · exact h
      · apply ih
        rw [has_Update, h]; simp

theorem ipLoop_has (f : String → Option Nat) (m : BpfMap) (l : List String) (k : Nat)
    (h : m.has k = true) : (ipLoop f m l).2.has k = true := by
  induction l generalizing m with
  | nil => simpa [ipLoop] using h
  | cons e rest ih =>
    unfold ipLoop
    split
    · exact h
    · apply ih
      rw [has_Update, h]; simp


theorem setAndValidateParameters_remotePortMap (f : String → Option Nat) (cfg : FilterConfig)
    (maps : FilterMaps) :
    (setAndValidateParameters f cfg maps).2.EnabledRemotePortMap
      = (remotePortStage cfg maps.EnabledRemotePortMap).2 := by
  unfold setAndValidateParameters
  dsimp only
  split_ifs <;> rfl

theorem setAndValidateParameters_true (f : String → Option Nat) (cfg : FilterConfig)
    (maps : FilterMaps) (h : (setAndValidateParameters f cfg maps).1 = true) :
    (setAndValidateParameters f cfg maps).2.EnabledRemoteIpv4Map
      = (remoteIpStage f cfg maps.EnabledRemoteIpv4Map).2
    ∧ (setAndValidateParameters f cfg maps).2.EnabledLocalPortMap
      = (localPortStage cfg maps.EnabledLocalPortMap).2 := by
  unfold setAndValidateParameters at h ⊢
  dsimp only at h ⊢
  split_ifs at h ⊢ <;> exact ⟨rfl, rfl⟩

theorem setAndValidateParameters_untouched (f : String → Option Nat) (cfg : FilterConfig)
    (maps : FilterMaps) :
    (cfg.RemotePorts = [] →
      (setAndValidateParameters f cfg maps).2.EnabledRemotePortMap = maps.EnabledRemotePortMap)
    ∧ (cfg.RemoteIps = [] →
      (setAndValidateParameters f cfg maps).2.EnabledRemoteIpv4Map = maps.EnabledRemoteIpv4Map)
    ∧ (cfg.LocalPorts = [] →
      (setAndValidateParameters f cfg maps).2.EnabledLocalPortMap = maps.EnabledLocalPortMap) := by
  refine ⟨fun h => ?_, fun h => ?_, fun h => ?_⟩
  · rw [setAndValidateParameters_remotePortMap]; simp [remotePortStage, h]
  · unfold setAndValidateParameters
    dsimp only
    split_ifs <;> simp [remoteIpStage, h]
  · unfold setAndValidateParameters
    dsimp only
    split_ifs <;> simp [localPortStage, h]

theorem remotePortStage_has_one (cfg : FilterConfig) :
    ((remotePortStage cfg []).2.has 1 = true ↔ cfg.RemotePorts ≠ []) := by
  unfold remotePortStage
  cases hl : cfg.RemotePorts with
  | nil => simp [BpfMap.has]
  | cons e rest =>
    simp only [List.length_cons, Nat.succ_pos, gt_iff_lt, if_true, ne_eq, reduceCtorEq,
      not_false_eq_true, iff_true, Nat.zero_lt_succ]
    exact portLoop_has _ _ 1 (by rw [has_Update]; simp)

theorem localPortStage_has_one (cfg : FilterConfig) :
    ((localPortStage cfg []).2.has 1 = true ↔ cfg.LocalPorts ≠ []) := by
  unfold localPortStage
  cases hl : cfg.LocalPorts with
  | nil => simp [BpfMap.has]
  | cons e rest =>
    simp only [List.length_cons, Nat.succ_pos, gt_iff_lt, if_true, ne_eq, reduceCtorEq,
      not_false_eq_true, iff_true, Nat.zero_lt_succ]
    exact portLoop_has _ _ 1 (by rw [has_Update]; simp)

theorem remoteIpStage_has_one (f : String → Option Nat) (cfg : FilterConfig) :
    ((remoteIpStage f cfg []).2.has 1 = true ↔ cfg.RemoteIps ≠ []) := by
  unfold remoteIpStage
  cases hl : cfg.RemoteIps with
  | nil => simp [BpfMap.has]
  | cons e rest =>
    simp only [List.length_cons, Nat.succ_pos, gt_iff_lt, if_true, ne_eq, reduceCtorEq,
      not_false_eq_true, iff_true, Nat.zero_lt_succ]
    exact ipLoop_has _ _ _ 1 (by rw [has_Update]; simp)

/-- An entry that `strconv.Atoi` rejects, or whose value is not positive, ends
the port loop with `false`. -/
theorem portLoop_refuses (m : BpfMap) (l : List String) (e : String) (he : e ∈ l)
    (hbad : strconvAtoi e = none ∨ ∃ p : Int, strconvAtoi e = some p ∧ p ≤ 0) :
    (portLoop m l).1 = false := by
  induction l generalizing m with
  | nil => cases he
  | cons x rest ih =>
    unfold portLoop
    rcases List.mem_cons.mp he with hx | hx
    · subst hx
      rcases hbad with h | ⟨p, h, hp⟩
      · simp [h]
      · simp [h, hp]
    · split
      · rfl
      · split
        · rfl
        · exact ih _ hx

/-- C10 (counterexample). With remote ports `["0"]` and local ports `["80"]`
the call returns `false` at the remote port, and `EnabledLocalPortMap` has no
key `1` although the local-port list is not empty. -/
theorem sentinel_missing_after_refusal :
    setAndValidateParameters (fun _ => none)
        { FilterPid := 0, RemotePorts := ["0"], RemoteIps := [], LocalPorts := ["80"] }
        FilterMaps.empty
      = (false, { ControlValues := [], EnabledRemotePortMap := [(1, 0)],
                  EnabledRemoteIpv4Map := [], EnabledLocalPortMap := [] })
    ∧ ¬ ((setAndValidateParameters (fun _ => none)
            { FilterPid := 0, RemotePorts := ["0"], RemoteIps := [], LocalPorts := ["80"] }
            FilterMaps.empty).2.EnabledLocalPortMap.has 1 = true
          ↔ (["80"] : List String) ≠ []) := by
  refine ⟨by decide, by decide⟩

/-- Key `1` after `setAndValidateParameters` from empty maps: present in each
map exactly when its list is not empty once the call returns `true`; a map
whose list is empty stays empty on every return. -/
theorem sentinel_key_presence (ipv4ToUint32 : String → Option Nat) (cfg : FilterConfig) :
    ((setAndValidateParameters ipv4ToUint32 cfg FilterMaps.empty).1 = true →
      ((setAndValidateParameters ipv4ToUint32 cfg FilterMaps.empty).2.EnabledRemotePortMap.has 1
          = true ↔ cfg.RemotePorts ≠ [])
      ∧ ((setAndValidateParameters ipv4ToUint32 cfg FilterMaps.empty).2.EnabledRemoteIpv4Map.has 1
          = true ↔ cfg.RemoteIps ≠ [])
      ∧ ((setAndValidateParameters ipv4ToUint32 cfg FilterMaps.empty).2.EnabledLocalPortMap.has 1
          = true ↔ cfg.LocalPorts ≠ []))
    ∧ (cfg.RemotePorts = [] →
        (setAndValidateParameters ipv4ToUint32 cfg FilterMaps.empty).2.EnabledRemotePortMap = [])
    ∧ (cfg.RemoteIps = [] →
        (setAndValidateParameters ipv4ToUint32 cfg FilterMaps.empty).2.EnabledRemoteIpv4Map = [])
    ∧ (cfg.LocalPorts = [] →
        (setAndValidateParameters ipv4ToUint32 cfg FilterMaps.empty).2.EnabledLocalPortMap = [])
    ∧ ((setAndValidateParameters ipv4ToUint32 cfg FilterMaps.empty).2.EnabledRemotePortMap.has 1
          = true ↔ cfg.RemotePorts ≠ []) := by
  have hu := setAndValidateParameters_untouched ipv4ToUint32 cfg FilterMaps.empty
  refine ⟨fun h => ?_, hu.1, hu.2.1, hu.2.2, ?_⟩
  swap
  · rw [setAndValidateParameters_remotePortMap]
    exact remotePortStage_has_one cfg
  have ht := setAndValidateParameters_true ipv4ToUint32 cfg FilterMaps.empty h
  rw [setAndValidateParameters_remotePortMap, ht.1, ht.2]
  exact ⟨remotePortStage_has_one cfg, remoteIpStage_has_one ipv4ToUint32 cfg,
    localPortStage_has_one cfg⟩

/-- C15. There are 14 step kinds; their codes are pairwise distinct and
strictly increasing along the chain SSL_OUT, SYSCALL_OUT, TCP_OUT, IP_OUT,
QDISC_OUT, DEV_OUT, NIC_OUT, NIC_IN, DEV_IN, IP_IN, TCP_IN, USER_COPY,
SYSCALL_IN, SSL_IN, every egress code below every ingress code; every code lies
strictly between `Start` and `End`, and the loop from `Start` to `End - 1`
visits every step kind. -/
theorem step_codes_chain :
    stepChain.length = 14
    ∧ stepChain.Nodup
    ∧ List.Pairwise (fun a b => a < b) stepChain
    ∧ stepChain = egressSteps ++ ingressSteps
    ∧ (∀ e ∈ egressSteps, ∀ i ∈ ingressSteps, e < i)
    ∧ (∀ s ∈ stepChain, Openssl111jStepTStart < s ∧ s < Openssl111jStepTEnd)
    ∧ (∀ s ∈ stepChain, s ∈ stepLoop AgentStepTStart AgentStepTEnd)
    ∧ stepLoop AgentStepTStart AgentStepTEnd = Openssl111jStepTStart :: stepChain := by
  refine ⟨by decide, by decide, by decide, by decide, by decide, by decide, by decide, by decide⟩


/-! ## Attaching programs -/

theorem attachFallbacks_all_fail (attach : AttachCall → Option Link)
    (functions : List InstrumentFunction) (rest : List InstrumentFunction) (calls : List AttachCall)
    (idx : Nat) (st : AttachState)
    (hne : rest ≠ [])
    (hidx : idx + rest.length = functions.length)
    (hcalls : rest.map attachCallOf = calls.map some)
    (hfail : ∀ c ∈ calls, attach c = none) :
    attachFallbacks attach functions idx rest st
      = (.fatal, { linkList := st.linkList, tried := st.tried ++ calls }) := by
  induction rest generalizing idx st calls with
  | nil => exact absurd rfl hne
  | cons f rest ih =>
    cases calls with
    | nil => simp at hcalls
    | cons c calls =>
      simp only [List.map_cons, List.cons.injEq] at hcalls
      have hc : attach c = none := hfail c (List.mem_cons_self _ _)
      unfold attachFallbacks
      simp only [hcalls.1, hc]
      by_cases hrest : rest = []
      · subst hrest
        have hcs : calls = [] := by
          have := hcalls.2
          simpa using this.symm
        subst hcs
        have : idx = functions.length - 1 := by simp at hidx; omega
        simp [this]
      · have hlen : 0 < rest.length := List.length_pos.mpr hrest
        have hidx2 : ¬ idx = functions.length - 1 := by
          simp only [List.length_cons] at hidx; omega
        simp only [hidx2, if_false]
        rw [ih calls (idx + 1) _ hrest (by simp only [List.length_cons] at hidx; omega)
          hcalls.2 (fun c2 hc2 => hfail c2 (List.mem_cons_of_mem _ hc2))]
        simp

theorem attachFallbacks_first_success (attach : AttachCall → Option Link)
    (functions : List InstrumentFunction) (pre : List InstrumentFunction) (f : InstrumentFunction)
    (post : List InstrumentFunction) (calls : List AttachCall) (c : AttachCall) (l : Link)
    (idx : Nat) (st : AttachState)
    (hidx : idx + (pre ++ f :: post).length = functions.length)
    (hcalls : pre.map attachCallOf = calls.map some)
    (hfail : ∀ c2 ∈ calls, attach c2 = none)
    (hf : attachCallOf f = some c) (hok : attach c = some l) :
    attachFallbacks attach functions idx (pre ++ f :: post) st
      = (.done, { linkList := st.linkList ++ [l], tried := st.tried ++ calls ++ [c] }) := by
  induction pre generalizing idx st calls with
  | nil =>
    have hcs : calls = [] := by simpa using hcalls.symm
    subst hcs
    simp only [List.nil_append]
    unfold attachFallbacks
    simp [hf, hok]
  | cons g pre ih =>
    cases calls with
    | nil => simp at hcalls
    | cons c1 calls =>
      simp only [List.map_cons, List.cons.injEq] at hcalls
      have hc : attach c1 = none := hfail c1 (List.mem_cons_self _ _)
      simp only [List.cons_append]
      unfold attachFallbacks
      simp only [hcalls.1, hc]
      have hidx2 : ¬ idx = functions.length - 1 := by
        simp only [List.cons_append, List.length_cons, List.length_append] at hidx; omega
      simp only [hidx2, if_false]
      rw [ih calls (idx + 1) _
        (by simp only [List.cons_append, List.length_cons, List.length_append] at hidx ⊢; omega)
        hcalls.2 (fun c2 hc2 => hfail c2 (List.mem_cons_of_mem _ hc2))]
      simp

/-- The loop over one fallback list: the attach calls are made in list order;
the first success appends its link and ends the loop, the functions after it
untried; when every call of a non-empty list fails the loop ends in `Fatalf`. -/
theorem attachFallbacks_ordered (attach : AttachCall → Option Link) (st : AttachState) :
    (∀ (pre : List InstrumentFunction) (f : InstrumentFunction) (post : List InstrumentFunction)
        (calls : List AttachCall) (c : AttachCall) (l : Link),
      pre.map attachCallOf = calls.map some → (∀ c2 ∈ calls, attach c2 = none) →
      attachCallOf f = some c → attach c = some l →
      attachFallbacks attach (pre ++ f :: post) 0 (pre ++ f :: post) st
        = (.done, { linkList := st.linkList ++ [l], tried := st.tried ++ calls ++ [c] }))
    ∧ (∀ (functions : List InstrumentFunction) (calls : List AttachCall),
      functions ≠ [] → functions.map attachCallOf = calls.map some →
      (∀ c ∈ calls, attach c = none) →
      attachFallbacks attach functions 0 functions st
        = (.fatal, { linkList := st.linkList, tried := st.tried ++ calls })) := by
  constructor
  · intro pre f post calls c l hcalls hfail hf hok
    exact attachFallbacks_first_success attach _ pre f post calls c l 0 st (by simp)
      hcalls hfail hf hok
  · intro functions calls hne hcalls hfail
    exact attachFallbacks_all_fail attach functions functions calls 0 st hne (by simp)
      hcalls hfail

/-! ## Filtering programs -/

theorem mem_stepLoop (start stop s : Nat) : s ∈ stepLoop start stop ↔ start ≤ s ∧ s < stop := by
  unfold stepLoop
  simp only [List.mem_map, List.mem_range]
  constructor
  · rintro ⟨i, hi, rfl⟩
    omega
  · rintro ⟨h1, h2⟩
    exact ⟨s - start, by omega, by omega⟩

theorem mem_foldl_stepNames (B : BpfNames) (kv : KernelVersion) (steps : List Nat)
    (init : List String) (name : String) :
    name ∈ steps.foldl
      (fun names step =>
        match kv.InstrumentFunctions.lookup step with
        | some functions =>
          names ++ functions.map (fun function => B.GoProgName2CProgName function.BPFGoProgName)
        | none => names) init
    ↔ name ∈ init ∨ ∃ s functions function, s ∈ steps
        ∧ kv.InstrumentFunctions.lookup s = some functions ∧ function ∈ functions
        ∧ name = B.GoProgName2CProgName function.BPFGoProgName := by
  induction steps generalizing init with
  | nil => simp
  | cons step steps ih =>
    simp only [List.foldl_cons]
    rw [ih]
    constructor
    · rintro (h | ⟨s, fs, f, hs, hl, hf, hn⟩)
      · cases hlk : kv.InstrumentFunctions.lookup step with
        | none => rw [hlk] at h; exact Or.inl h
        | some functions =>
          rw [hlk] at h
          simp only [List.mem_append, List.mem_map] at h
          rcases h with h | ⟨f, hf, hn⟩
          · exact Or.inl h
          · exact Or.inr ⟨step, functions, f, List.mem_cons_self _ _, hlk, hf, hn.symm⟩
      · exact Or.inr ⟨s, fs, f, List.mem_cons_of_mem _ hs, hl, hf, hn⟩
    · rintro (h | ⟨s, fs, f, hs, hl, hf, hn⟩)
      · left
        cases hlk : kv.InstrumentFunctions.lookup step with
        | none => exact h
        | some functions => simp only [List.mem_append]; exact Or.inl h
      · rcases List.mem_cons.mp hs with rfl | hs
        · left
          rw [hl]
          simp only [List.mem_append, List.mem_map]
          exact Or.inr ⟨f, hf, hn.symm⟩
        · exact Or.inr ⟨s, fs, f, hs, hl, hf, hn⟩

/-- For a name of the collection, membership in the slice `finalCProgNames`
of the code is membership in the allowed set of the specification. -/
theorem mem_finalCProgNames (B : BpfNames) (coll : Programs) (kv : KernelVersion) (name : String)
    (hname : name ∈ coll.map Prod.fst) :
    name ∈ finalCProgNames B coll kv ↔ allowedName B kv name := by
  unfold finalCProgNames allowedName stepProgNames
  simp only [List.mem_append, List.mem_filter, Bool.or_eq_true, mem_foldl_stepNames,
    mem_stepLoop, List.not_mem_nil, false_or]
  constructor
  · rintro ((((h | h) | h) | h) | h)
    · left
      cases hx : kv.SupportXDP <;> simp_all
    · right; left
      cases hx : kv.SupportRawTracepoint <;> simp_all
    · obtain ⟨s, fs, f, hs, hl, hf, hn⟩ := h
      exact Or.inr (Or.inr (Or.inl ⟨s, fs, f, hs.1, hs.2, hl, hf, hn⟩))
    · exact Or.inr (Or.inr (Or.inr (Or.inl h)))
    · exact Or.inr (Or.inr (Or.inr (Or.inr h.2)))
  · rintro (h | h | h | h | h)
    · left; left; left; left
      simp [h.1, h.2]
    · left; left; left; right
      simp [h.1, h.2]
    · obtain ⟨s, fs, f, h1, h2, hl, hf, hn⟩ := h
      exact Or.inl (Or.inl (Or.inr ⟨s, fs, f, ⟨h1, h2⟩, hl, hf, hn⟩))
    · exact Or.inl (Or.inr h)
    · exact Or.inr ⟨hname, h⟩

theorem assign_of_mem (programs : Programs) (name : String) (spec : ProgramSpec)
    (h : name ∈ programs.map Prod.fst) :
    programs.assign name spec = programs.map (fun e => if e.1 = name then (e.1, spec) else e) := by
  unfold Programs.assign
  have : programs.any (fun e => e.1 == name) = true := by
    simp only [List.any_eq_true, beq_iff_eq]
    obtain ⟨e, he, hn⟩ := List.mem_map.mp h
    exact ⟨e, he, hn⟩
  simp [this]

theorem foldl_assign (names : List String) (programs : Programs) (spec : ProgramSpec)
    (h : ∀ n ∈ names, n ∈ programs.map Prod.fst) :
    names.foldl (fun ps each => ps.assign each spec) programs
      = programs.map (fun e => if e.1 ∈ names then (e.1, spec) else e) := by
  induction names generalizing programs with
  | nil => simp
  | cons n names ih =>
    simp only [List.foldl_cons]
    rw [assign_of_mem programs n spec (h n (List.mem_cons_self _ _))]
    rw [ih]
    · rw [List.map_map]
      apply List.map_congr_left
      intro e _
      simp only [Function.comp]
      by_cases h1 : e.1 = n
      · simp [h1]
      · by_cases h2 : e.1 ∈ names
        · simp [h1, h2]
        · simp [h1, h2]
    · intro m hm
      rw [List.map_map]
      have := h m (List.mem_cons_of_mem _ hm)
      obtain ⟨e, he, hn⟩ := List.mem_map.mp this
      refine List.mem_map.mpr ⟨e, he, ?_⟩
      show (if e.1 = n then (e.1, spec) else e).1 = m
      split_ifs <;> exact hn

/-- The collection after `filterFunctions`, entry by entry. -/
theorem filterFunctions_eq_map (B : BpfNames) (coll : Programs) (kv : KernelVersion) :
    filterFunctions B coll kv
      = coll.map (fun e =>
          if e.1 ∈ finalCProgNames B coll kv then e else (e.1, socketFilterSpec)) := by
  unfold filterFunctions
  rw [foldl_assign]
  · apply List.map_congr_left
    intro e he
    have hmem : e.1 ∈ coll.map Prod.fst := List.mem_map_of_mem _ he
    by_cases h : e.1 ∈ finalCProgNames B coll kv
    · simp [needsDelete, h]
    · simp [needsDelete, h, hmem]
  · intro n hn
    unfold needsDelete at hn
    exact (List.mem_filter.mp hn).1

/-- C12. After `filterFunctions` the program names of the collection are the
same, in the same places; a program whose name is in the allowed set keeps its
spec, every other program has `socketFilterSpec`; so a program whose spec was
not already the stub keeps its spec exactly when its name is allowed. -/
theorem filterFunctions_keeps_allowed (B : BpfNames) (coll : Programs) (kv : KernelVersion) :
    (filterFunctions B coll kv).map Prod.fst = coll.map Prod.fst
    ∧ List.Forall₂
        (fun before after =>
          (allowedName B kv before.1 → after = before)
          ∧ (¬ allowedName B kv before.1 → after = (before.1, socketFilterSpec))
          ∧ (before.2 ≠ socketFilterSpec → (after = before ↔ allowedName B kv before.1)))
        coll (filterFunctions B coll kv) := by
  rw [filterFunctions_eq_map]
  constructor
  · rw [List.map_map]
    apply List.map_congr_left
    intro e _
    simp only [Function.comp]
    split_ifs <;> rfl
  · rw [List.forall₂_map_right_iff, List.forall₂_same]
    intro e he
    have hiff := mem_finalCProgNames B coll kv e.1 (List.mem_map_of_mem _ he)
    by_cases h : e.1 ∈ finalCProgNames B coll kv
    · have ha := hiff.mp h
      simp [h, ha]
    · have ha : ¬ allowedName B kv e.1 := fun hc => h (hiff.mpr hc)
      simp only [h, if_false, ha, false_implies, not_false_eq_true, true_implies, true_and,
        iff_false]
      intro hne heq
      apply hne
      have := congrArg Prod.snd heq
      exact this.symm

/-- C12 at a five-program collection on a kernel with every capability. -/
theorem filterFunctions_keeps_allowed_witness :
    filterFunctions sampleBpfNames sampleColl ringKernel
      = [("xdp_proxy", loadedSpec "xdp_proxy"), ("c_TcpSendmsg", loadedSpec "c_TcpSendmsg"),
         ("c_NetDevQueue", loadedSpec "c_NetDevQueue"),
         ("tracepoint__syscalls__sys_enter_read", loadedSpec "sys_enter_read"),
         ("ip_rcv_core", socketFilterSpec)]
    ∧ (filterFunctions sampleBpfNames sampleColl ringKernel).map Prod.fst
        = sampleColl.map Prod.fst :=
  ⟨by decide, (filterFunctions_keeps_allowed sampleBpfNames sampleColl ringKernel).1⟩

/-! ## Readers -/

theorem ringbuffer_loop_until_close {R : Type} (consumeFunction : R → Bool)
    (pre post : List (ReadResult R)) (h : ReadResult.errClosed ∉ pre) :
    startRingbufferReader consumeFunction (pre ++ .errClosed :: post)
        = startRingbufferReader consumeFunction pre ++ [.exit]
    ∧ LoopEvent.exit ∉ startRingbufferReader consumeFunction pre
    ∧ consumed (startRingbufferReader consumeFunction pre) = recordsOf pre := by
  induction pre with
  | nil => simp [startRingbufferReader, consumed, recordsOf]
  | cons x pre ih =>
    have hx : x ≠ .errClosed := fun hc => h (by simp [hc])
    have ih2 := ih (fun hc => h (List.mem_cons_of_mem _ hc))
    cases x with
    | record r =>
      simp only [List.cons_append, startRingbufferReader]
      split_ifs <;> simp [ih2.1, ih2.2.1, consumed, recordsOf, ih2.2.2]
    | errClosed => exact absurd rfl hx
    | errOther =>
      simp [startRingbufferReader, ih2.1, ih2.2.1, consumed, recordsOf, ih2.2.2]

theorem perfevent_loop_until_close (consumeFunction : PerfRecord → Bool)
    (pre post : List (ReadResult PerfRecord)) (h : ReadResult.errClosed ∉ pre) :
    startPerfeventReader consumeFunction (pre ++ .errClosed :: post)
        = startPerfeventReader consumeFunction pre ++ [.exit]
    ∧ LoopEvent.exit ∉ startPerfeventReader consumeFunction pre
    ∧ consumed (startPerfeventReader consumeFunction pre) = recordsOf pre := by
  induction pre with
  | nil => simp [startPerfeventReader, consumed, recordsOf]
  | cons x pre ih =>
    have hx : x ≠ .errClosed := fun hc => h (by simp [hc])
    have ih2 := ih (fun hc => h (List.mem_cons_of_mem _ hc))
    cases x with
    | record r =>
      simp only [List.cons_append, startPerfeventReader]
      split_ifs <;> simp [ih2.1, ih2.2.1, consumed, recordsOf, ih2.2.2]
    | errClosed => exact absurd rfl hx
    | errOther =>
      simp [startPerfeventReader, ih2.1, ih2.2.1, consumed, recordsOf, ih2.2.2]

/-- C13. For read results without an `ErrClosed`, both reader loops hand every
record read to the consume function once, in read order, whatever the consume
function returns and whatever other read errors occur, and do not exit; the
first `ErrClosed` read after them makes the loop exit, and nothing read later
is looked at. -/
theorem reader_loops_survive_errors {R : Type} (consumeRing : R → Bool)
    (consumePerf : PerfRecord → Bool) (ringReads ringLater : List (ReadResult R))
    (perfReads perfLater : List (ReadResult PerfRecord))
    (hring : ReadResult.errClosed ∉ ringReads) (hperf : ReadResult.errClosed ∉ perfReads) :
    (consumed (startRingbufferReader consumeRing ringReads) = recordsOf ringReads
      ∧ LoopEvent.exit ∉ startRingbufferReader consumeRing ringReads
      ∧ startRingbufferReader consumeRing (ringReads ++ .errClosed :: ringLater)
          = startRingbufferReader consumeRing ringReads ++ [.exit])
    ∧ (consumed (startPerfeventReader consumePerf perfReads) = recordsOf perfReads
      ∧ LoopEvent.exit ∉ startPerfeventReader consumePerf perfReads
      ∧ startPerfeventReader consumePerf (perfReads ++ .errClosed :: perfLater)
          = startPerfeventReader consumePerf perfReads ++ [.exit]) := by
  have h1 := ringbuffer_loop_until_close consumeRing ringReads ringLater hring
  have h2 := perfevent_loop_until_close consumePerf perfReads perfLater hperf
  exact ⟨⟨h1.2.2, h1.2.1, h1.1⟩, ⟨h2.2.2, h2.2.1, h2.1⟩⟩

/-- C13 at three reads (a record whose consume fails, a read error, a record)
followed by the close. -/
theorem reader_loops_survive_errors_witness :
    (consumed (startRingbufferReader (fun r : Nat => r == 1) [.record 1, .errOther, .record 2])
        = recordsOf [.record 1, .errOther, .record 2]
      ∧ LoopEvent.exit ∉
          startRingbufferReader (fun r : Nat => r == 1) [.record 1, .errOther, .record 2]
      ∧ startRingbufferReader (fun r : Nat => r == 1)
          ([.record 1, .errOther, .record 2] ++ .errClosed :: [.record 3])
          = startRingbufferReader (fun r : Nat => r == 1) [.record 1, .errOther, .record 2]
              ++ [.exit])
    ∧ (consumed (startPerfeventReader (fun r => r.RawSample.isEmpty)
          [.record { RawSample := [], LostSamples := 2 }, .errOther,
           .record { RawSample := [1], LostSamples := 0 }])
        = recordsOf [.record { RawSample := [], LostSamples := 2 }, .errOther,
            .record { RawSample := [1], LostSamples := 0 }]
      ∧ LoopEvent.exit ∉ startPerfeventReader (fun r => r.RawSample.isEmpty)
          [.record { RawSample := [], LostSamples := 2 }, .errOther,
           .record { RawSample := [1], LostSamples := 0 }]
      ∧ startPerfeventReader (fun r => r.RawSample.isEmpty)
          ([.record { RawSample := [], LostSamples := 2 }, .errOther,
            .record { RawSample := [1], LostSamples := 0 }] ++ .errClosed :: [])
          = startPerfeventReader (fun r => r.RawSample.isEmpty)
              [.record { RawSample := [], LostSamples := 2 }, .errOther,
               .record { RawSample := [1], LostSamples := 0 }] ++ [.exit]) :=
  reader_loops_survive_errors (fun r : Nat => r == 1) (fun r => r.RawSample.isEmpty)
    [.record 1, .errOther, .record 2] [.record 3]
    [.record { RawSample := [], LostSamples := 2 }, .errOther,
     .record { RawSample := [1], LostSamples := 0 }] []
    (by decide) (by decide)

/-- C14. When every reader can be created, `setupReaders` returns the readers
of SyscallRb, SslRb, Rb, ConnEvtRb in this order under either transport;
`startReaders` wires the indexes 0, 1, 2, 3 to `handleSyscallEvt`,
`handleSslDataEvt`, `handleKernEvt`, `handleConnEvt` with the processor count
and the hooks of the options, so a raw sample gives the same handler run under
either transport; and each loop function gets a reader of the kind it asserts. -/
theorem transports_equivalent (L : SslLayout) (options : AgentOptions)
    (ring perf : KernelVersion) (newReaderFails : String → Bool)
    (hring : ring.SupportRingBuffer = true) (hperf : perf.SupportRingBuffer = false)
    (hok : ∀ mapName, newReaderFails mapName = false) :
    (setupReaders newReaderFails options ring).err = false
    ∧ (setupReaders newReaderFails options perf).err = false
    ∧ (setupReaders newReaderFails options ring).closers
        = [ { mapName := "SyscallRb", kind := .ringbuf }, { mapName := "SslRb", kind := .ringbuf },
            { mapName := "Rb", kind := .ringbuf }, { mapName := "ConnEvtRb", kind := .ringbuf } ]
    ∧ (setupReaders newReaderFails options perf).closers
        = [ { mapName := "SyscallRb", kind := .perf options.PerfEventBufferSizeForData },
            { mapName := "SslRb", kind := .perf options.PerfEventBufferSizeForData },
            { mapName := "Rb", kind := .perf options.PerfEventBufferSizeForEvent },
            { mapName := "ConnEvtRb", kind := .perf options.PerfEventBufferSizeForEvent } ]
    ∧ (startReaders L options ring).map (fun s => s.readerIndex) = [0, 1, 2, 3]
    ∧ (startReaders L options perf).map (fun s => s.readerIndex) = [0, 1, 2, 3]
    ∧ (∀ rawSample : List Byte,
        (startReaders L options ring).map (fun s => s.consume rawSample)
          = [ .syscall (handleSyscallEvt rawSample options.ProcessorsNum
                options.CustomSyscallEventHook),
              .ssl (handleSslDataEvt L rawSample options.ProcessorsNum
                options.CustomSslEventHook),
              .kern (handleKernEvt rawSample options.ProcessorsNum options.CustomKernEventHook),
              .conn (handleConnEvt rawSample options.ProcessorsNum
                options.CustomConnEventHook) ]
        ∧ (startReaders L options perf).map (fun s => s.consume rawSample)
          = (startReaders L options ring).map (fun s => s.consume rawSample))
    ∧ List.Forall₂ (fun s reader => s.start.accepts reader.kind = true)
        (startReaders L options ring) (setupReaders newReaderFails options ring).closers
    ∧ List.Forall₂ (fun s reader => s.start.accepts reader.kind = true)
        (startReaders L options perf) (setupReaders newReaderFails options perf).closers := by
  have e1 : (setupReaders newReaderFails options ring).closers
      = [ { mapName := "SyscallRb", kind := .ringbuf }, { mapName := "SslRb", kind := .ringbuf },
          { mapName := "Rb", kind := .ringbuf }, { mapName := "ConnEvtRb", kind := .ringbuf } ] := by
    simp [setupReaders, setupReader, hok, hring]
  have e2 : (setupReaders newReaderFails options perf).closers
      = [ { mapName := "SyscallRb", kind := .perf options.PerfEventBufferSizeForData },
          { mapName := "SslRb", kind := .perf options.PerfEventBufferSizeForData },
          { mapName := "Rb", kind := .perf options.PerfEventBufferSizeForEvent },
          { mapName := "ConnEvtRb", kind := .perf options.PerfEventBufferSizeForEvent } ] := by
    simp [setupReaders, setupReader, hok, hperf]
  refine ⟨by simp [setupReaders, setupReader, hok, hring],
    by simp [setupReaders, setupReader, hok, hperf], e1, e2,
    by simp [startReaders, hring], by simp [startReaders, hperf], ?_, ?_, ?_⟩
  · intro rawSample
    simp [startReaders, hring, hperf]
  · rw [e1]
    simp [startReaders, hring, StartCall.accepts]
  · rw [e2]
    simp [startReaders, hperf, StartCall.accepts]

/-- C14 at a ring-buffer kernel and a perf-buffer kernel, every reader created. -/
theorem transports_equivalent_witness :
    (setupReaders (fun _ => false) zeroOptions ringKernel).closers.map (fun r => r.mapName)
        = ["SyscallRb", "SslRb", "Rb", "ConnEvtRb"]
    ∧ (startReaders sslLayout80 zeroOptions perfKernel).map (fun s => s.consume [1, 2, 3])
        = (startReaders sslLayout80 zeroOptions ringKernel).map (fun s => s.consume [1, 2, 3]) := by
  have h := transports_equivalent sslLayout80 zeroOptions ringKernel perfKernel (fun _ => false)
    (by decide) (by decide) (fun _ => rfl)
  refine ⟨?_, (h.2.2.2.2.2.2.1 [1, 2, 3]).2⟩
  rw [h.2.2.1]
  rfl

/-- C18 (code defect). When the reader of SslRb cannot be created,
`setupReaders` returns a nil slice with the error although the reader of
SyscallRb was created, so the cleanup of `SetupAgent` leaves that reader open;
a failure at SyscallRb, Rb or ConnEvtRb leaves none open. -/
theorem setupReaders_second_failure_leaks :
    setupReaders (fun mapName => mapName == "SslRb") zeroOptions ringKernel
      = { closers := [], err := true,
          created := [{ mapName := "SyscallRb", kind := .ringbuf }] }
    ∧ readersLeftOpen (setupReaders (fun mapName => mapName == "SslRb") zeroOptions ringKernel)
      = [{ mapName := "SyscallRb", kind := .ringbuf }]
    ∧ readersLeftOpen (setupReaders (fun mapName => mapName == "SyscallRb") zeroOptions
        ringKernel) = []
    ∧ readersLeftOpen (setupReaders (fun mapName => mapName == "Rb") zeroOptions ringKernel) = []
    ∧ readersLeftOpen (setupReaders (fun mapName => mapName == "ConnEvtRb") zeroOptions
        ringKernel) = [] := by
  refine ⟨by decide, by decide, by decide, by decide, by decide⟩

/-! ## Shard index bounds -/

/-- For a key below `2^63` and a positive processor count the index is in bounds. -/
theorem goRem_goInt_bounds (key : Nat) (N : Nat) (hk : key < 2 ^ 63) (hN : 1 ≤ N) :
    ∃ idx : Int, goRem (goInt key) (N : Int) = some idx ∧ 0 ≤ idx ∧ idx < N := by
  refine ⟨((key % N : Nat) : Int), goRem_goInt_of_lt key N hk hN, by omega, ?_⟩
  have : key % N < N := Nat.mod_lt _ (by omega)
  omega

/-- C17 (code defect). With three processors, the key `2^63 + 1` in a
kernel-step, syscall or SSL record and the connection record of pid `1`,
fd `-1` all decode successfully and make the handler pass the index `-1` to
`pm.GetProcessor`, which is not in `0 .. 2`. -/
theorem processor_index_out_of_bounds :
    processorIndex (handleKernEvt (kernRecordWithKey highKeyBytes) 3 false) = some (-1)
    ∧ processorIndex (handleSyscallEvt (kernRecordWithKey highKeyBytes ++ [0, 0, 0, 0]) 3 false)
        = some (-1)
    ∧ processorIndex (handleSslDataEvt sslLayout80
        (kernRecordWithKey highKeyBytes ++ List.replicate 16 0) 3 false) = some (-1)
    ∧ processorIndex (handleConnEvt connRecordNegFd 3 false) = some (-1)
    ∧ (handleKernEvt (kernRecordWithKey highKeyBytes) 3 false).ret = .nil
    ∧ (handleConnEvt connRecordNegFd 3 false).ret = .nil
    ∧ ¬ (0 ≤ (-1 : Int) ∧ (-1 : Int) < 3) := by
  refine ⟨by decide, by decide, by decide, by decide, by decide, by decide, by decide⟩

/-! ## Partial writes of `setAndValidateParameters` -/

theorem portLoop_valid_append (m : BpfMap) (pre rest : List String) (ports : List Int)
    (hpre : pre.map strconvAtoi = ports.map some) (hpos : ∀ p ∈ ports, 0 < p) :
    portLoop m (pre ++ rest) = portLoop (writePorts m ports) rest := by
  induction pre generalizing m ports with
  | nil =>
    have : ports = [] := by simpa using hpre.symm
    subst this
    rfl
  | cons e pre ih =>
    cases ports with
    | nil => simp at hpre
    | cons p ports =>
      simp only [List.map_cons, List.cons.injEq] at hpre
      have hp : ¬ p ≤ 0 := by have := hpos p (List.mem_cons_self _ _); omega
      simp only [List.cons_append]
      rw [portLoop]
      simp only [hpre.1, hp, if_false]
      rw [ih _ ports hpre.2 (fun q hq => hpos q (List.mem_cons_of_mem _ hq))]
      rfl

theorem portLoop_invalid_head (m : BpfMap) (bad : String) (post : List String)
    (hbad : strconvAtoi bad = none ∨ ∃ p : Int, strconvAtoi bad = some p ∧ p ≤ 0) :
    portLoop m (bad :: post) = (false, m) := by
  rw [portLoop]
  rcases hbad with h | ⟨p, h, hp⟩
  · simp [h]
  · simp [h, hp]

theorem ipLoop_valid (f : String → Option Nat) (m : BpfMap) (l : List String) (ips : List Nat)
    (h : l.map f = ips.map some) : ipLoop f m l = (true, writeIps m ips) := by
  induction l generalizing m ips with
  | nil =>
    have : ips = [] := by simpa using h.symm
    subst this
    rfl
  | cons e l ih =>
    cases ips with
    | nil => simp at h
    | cons ip ips =>
      simp only [List.map_cons, List.cons.injEq] at h
      rw [ipLoop]
      simp only [h.1]
      rw [ih _ ips h.2]
      rfl

theorem writePorts_has (m : BpfMap) (ports : List Int) (k : Nat) :
    (writePorts m ports).has k = true ↔ m.has k = true ∨ ∃ p ∈ ports, k = toUnsigned 16 p := by
  induction ports generalizing m with
  | nil => simp [writePorts]
  | cons p ports ih =>
    have : writePorts m (p :: ports) = writePorts (m.Update (toUnsigned 16 p) 0) ports := rfl
    rw [this, ih, has_Update]
    simp only [Bool.or_eq_true, beq_iff_eq, List.mem_cons, exists_eq_or_imp]
    tauto

theorem writeIps_has (m : BpfMap) (ips : List Nat) (k : Nat) :
    (writeIps m ips).has k = true ↔ m.has k = true ∨ k ∈ ips := by
  induction ips generalizing m with
  | nil => simp [writeIps]
  | cons ip ips ih =>
    have : writeIps m (ip :: ips) = writeIps (m.Update ip 0) ips := rfl
    rw [this, ih, has_Update]
    simp only [Bool.or_eq_true, beq_iff_eq, List.mem_cons]
    tauto

/-- C19. When the first invalid remote port comes after the valid entries
`ports`, the call returns `false` with `EnabledRemotePortMap` holding key `1`
and the key `uint16(p) = p mod 65536` of every `p` in `ports`, and with the
remote-IP and local-port maps as they were. When the remote ports and remote
IPs are all valid and the first invalid local port comes after `ports`, the
call returns `false` with every remote-port and remote-IP write in place and
the local-port map holding key `1` and the keys of `ports`. -/
theorem setAndValidateParameters_not_atomic (ipv4ToUint32 : String → Option Nat)
    (cfg : FilterConfig) (maps : FilterMaps) :
    (∀ (pre : List String) (bad : String) (post : List String) (ports : List Int),
      cfg.RemotePorts = pre ++ bad :: post →
      pre.map strconvAtoi = ports.map some → (∀ p ∈ ports, 0 < p) →
      (strconvAtoi bad = none ∨ ∃ p : Int, strconvAtoi bad = some p ∧ p ≤ 0) →
      (setAndValidateParameters ipv4ToUint32 cfg maps).1 = false
      ∧ (setAndValidateParameters ipv4ToUint32 cfg maps).2.EnabledRemotePortMap
          = writePorts (maps.EnabledRemotePortMap.Update 1 0) ports
      ∧ (setAndValidateParameters ipv4ToUint32 cfg maps).2.EnabledRemotePortMap.has 1 = true
      ∧ (∀ p ∈ ports, (setAndValidateParameters ipv4ToUint32 cfg maps).2.EnabledRemotePortMap.has
          (toUnsigned 16 p) = true)
      ∧ (∀ p ∈ ports, toUnsigned 16 p = (p % 65536).toNat)
      ∧ (setAndValidateParameters ipv4ToUint32 cfg maps).2.EnabledRemoteIpv4Map
          = maps.EnabledRemoteIpv4Map
      ∧ (setAndValidateParameters ipv4ToUint32 cfg maps).2.EnabledLocalPortMap
          = maps.EnabledLocalPortMap)
    ∧ (∀ (rports : List Int) (ips : List Nat) (pre : List String) (bad : String)
        (post : List String) (ports : List Int),
      cfg.RemotePorts.map strconvAtoi = rports.map some → (∀ p ∈ rports, 0 < p) →
      cfg.RemoteIps.map ipv4ToUint32 = ips.map some →
      cfg.LocalPorts = pre ++ bad :: post →
      pre.map strconvAtoi = ports.map some → (∀ p ∈ ports, 0 < p) →
      (strconvAtoi bad = none ∨ ∃ p : Int, strconvAtoi bad = some p ∧ p ≤ 0) →
      (setAndValidateParameters ipv4ToUint32 cfg maps).1 = false
      ∧ (setAndValidateParameters ipv4ToUint32 cfg maps).2.EnabledRemotePortMap
          = (if cfg.RemotePorts = [] then maps.EnabledRemotePortMap
             else writePorts (maps.EnabledRemotePortMap.Update 1 0) rports)
      ∧ (setAndValidateParameters ipv4ToUint32 cfg maps).2.EnabledRemoteIpv4Map
          = (if cfg.RemoteIps = [] then maps.EnabledRemoteIpv4Map
             else writeIps (maps.EnabledRemoteIpv4Map.Update 1 0) ips)
      ∧ (setAndValidateParameters ipv4ToUint32 cfg maps).2.EnabledLocalPortMap
          = writePorts (maps.EnabledLocalPortMap.Update 1 1) ports) := by
  constructor
  · intro pre bad post ports hcfg hpre hpos hbad
    have hstage : remotePortStage cfg maps.EnabledRemotePortMap
        = (false, writePorts (maps.EnabledRemotePortMap.Update 1 0) ports) := by
      unfold remotePortStage
      have hlen : cfg.RemotePorts.length > 0 := by rw [hcfg]; simp
      simp only [hlen, if_true]
      rw [hcfg, portLoop_valid_append _ pre (bad :: post) ports hpre hpos,
        portLoop_invalid_head _ bad post hbad]
    have hres : setAndValidateParameters ipv4ToUint32 cfg maps
        = (false,
          { ControlValues := (if cfg.FilterPid > 0
              then maps.ControlValues.Update kTargetTGIDIndex (toUnsigned 64 cfg.FilterPid)
              else maps.ControlValues)
            EnabledRemotePortMap := writePorts (maps.EnabledRemotePortMap.Update 1 0) ports
            EnabledRemoteIpv4Map := maps.EnabledRemoteIpv4Map
            EnabledLocalPortMap := maps.EnabledLocalPortMap }) := by
      unfold setAndValidateParameters
      simp only [hstage, if_true]
    rw [hres]
    refine ⟨rfl, rfl, ?_, ?_, ?_, rfl, rfl⟩
    · exact (writePorts_has _ _ _).mpr (Or.inl (by rw [has_Update]; simp))
    · intro p hp
      exact (writePorts_has _ _ _).mpr (Or.inr ⟨p, hp, rfl⟩)
    · intro p _
      rfl
  · intro rports ips pre bad post ports hr hrpos hi hcfg hpre hpos hbad
    have h1 : remotePortStage cfg maps.EnabledRemotePortMap
        = (true, if cfg.RemotePorts = [] then maps.EnabledRemotePortMap
                 else writePorts (maps.EnabledRemotePortMap.Update 1 0) rports) := by
      unfold remotePortStage
      by_cases hnil : cfg.RemotePorts = []
      · simp [hnil]
      · have hlen : cfg.RemotePorts.length > 0 := List.length_pos.mpr hnil
        simp only [hlen, if_true, hnil, if_false]
        have := portLoop_valid_append (maps.EnabledRemotePortMap.Update 1 0) cfg.RemotePorts []
          rports hr hrpos
        rw [List.append_nil] at this
        rw [this]
        rfl
    have h2 : remoteIpStage ipv4ToUint32 cfg maps.EnabledRemoteIpv4Map
        = (true, if cfg.RemoteIps = [] then maps.EnabledRemoteIpv4Map
                 else writeIps (maps.EnabledRemoteIpv4Map.Update 1 0) ips) := by
      unfold remoteIpStage
      by_cases hnil : cfg.RemoteIps = []
      · simp [hnil]
      · have hlen : cfg.RemoteIps.length > 0 := List.length_pos.mpr hnil
        simp only [hlen, if_true, hnil, if_false]
        rw [ipLoop_valid _ _ _ ips hi]
    have h3 : localPortStage cfg maps.EnabledLocalPortMap
        = (false, writePorts (maps.EnabledLocalPortMap.Update 1 1) ports) := by
      unfold localPortStage
      have hlen : cfg.LocalPorts.length > 0 := by rw [hcfg]; simp
      simp only [hlen, if_true]
      rw [hcfg, portLoop_valid_append _ pre (bad :: post) ports hpre hpos,
        portLoop_invalid_head _ bad post hbad]
    unfold setAndValidateParameters
    simp [h1, h2, h3]

/-- C19 at remote ports `80`, `x`, `443` and at local ports `8080`, `0` after
valid remote filters. -/
theorem setAndValidateParameters_not_atomic_witness :
    ((setAndValidateParameters (fun _ => some 16909060)
        { FilterPid := 0, RemotePorts := ["80", "x", "443"], RemoteIps := ["1.2.3.4"],
          LocalPorts := ["22"] } FilterMaps.empty).1 = false
      ∧ (setAndValidateParameters (fun _ => some 16909060)
        { FilterPid := 0, RemotePorts := ["80", "x", "443"], RemoteIps := ["1.2.3.4"],
          LocalPorts := ["22"] } FilterMaps.empty).2.EnabledRemotePortMap
          = writePorts (FilterMaps.empty.EnabledRemotePortMap.Update 1 0) [80])
    ∧ ((setAndValidateParameters (fun _ => some 16909060)
        { FilterPid := 0, RemotePorts := ["443"], RemoteIps := ["1.2.3.4"],
          LocalPorts := ["8080", "0"] } FilterMaps.empty).1 = false
      ∧ (setAndValidateParameters (fun _ => some 16909060)
        { FilterPid := 0, RemotePorts := ["443"], RemoteIps := ["1.2.3.4"],
          LocalPorts := ["8080", "0"] } FilterMaps.empty).2.EnabledLocalPortMap
          = writePorts (FilterMaps.empty.EnabledLocalPortMap.Update 1 1) [8080]) := by
  have h1 := (setAndValidateParameters_not_atomic (fun _ => some 16909060)
    { FilterPid := 0, RemotePorts := ["80", "x", "443"], RemoteIps := ["1.2.3.4"],
      LocalPorts := ["22"] } FilterMaps.empty).1 ["80"] "x" ["443"] [80] rfl (by decide)
    (by decide) (Or.inl (by decide))
  have h2 := (setAndValidateParameters_not_atomic (fun _ => some 16909060)
    { FilterPid := 0, RemotePorts := ["443"], RemoteIps := ["1.2.3.4"],
      LocalPorts := ["8080", "0"] } FilterMaps.empty).2 [443] [16909060] ["8080"] "0" [] [8080]
    (by decide) (by decide) (by decide) rfl (by decide) (by decide)
    (Or.inr ⟨0, by decide, by decide⟩)
  exact ⟨⟨h1.1, h1.2.1⟩, ⟨h2.1, h2.2.2.2⟩⟩

/-! ## Size options -/

/-- C20. The three repaired size options are positive; each is the input value
when that is positive and otherwise its default (`10*1024`, `30*1024*1024`,
`1*1024*1024`); and repairing repaired options changes nothing (so none of
these fields and not `ProcessorsNum`), for every value of `runtime.NumCPU()`. -/
theorem validateAndRepairOptions_sizes (numCPU : Int) (options : AgentOptions) :
    0 < (validateAndRepairOptions numCPU options).BPFVerifyLogSize
    ∧ 0 < (validateAndRepairOptions numCPU options).PerfEventBufferSizeForData
    ∧ 0 < (validateAndRepairOptions numCPU options).PerfEventBufferSizeForEvent
    ∧ (validateAndRepairOptions numCPU options).BPFVerifyLogSize
        = (if 0 < options.BPFVerifyLogSize then options.BPFVerifyLogSize else 10 * 1024)
    ∧ (validateAndRepairOptions numCPU options).PerfEventBufferSizeForData
        = (if 0 < options.PerfEventBufferSizeForData then options.PerfEventBufferSizeForData
           else 30 * 1024 * 1024)
    ∧ (validateAndRepairOptions numCPU options).PerfEventBufferSizeForEvent
        = (if 0 < options.PerfEventBufferSizeForEvent then options.PerfEventBufferSizeForEvent
           else 1 * 1024 * 1024)
    ∧ validateAndRepairOptions numCPU (validateAndRepairOptions numCPU options)
        = validateAndRepairOptions numCPU options := by
  obtain ⟨a1, a2, a3, a4, a5, pn, mf, a8, a9, bpf, a11, pd, pe, a14⟩ := options
  simp only [validateAndRepairOptions, perfEventDataBufferSize, perfEventControlBufferSize]
  refine ⟨?_, ?_, ?_, ?_, ?_, ?_, ?_⟩
  · split_ifs <;> omega
  · split_ifs <;> omega
  · split_ifs <;> omega
  · split_ifs <;> omega
  · split_ifs <;> omega
  · split_ifs <;> omega
  · simp only [AgentOptions.mk.injEq, true_and, and_true]
    refine ⟨?_, ?_, ?_, ?_, ?_, ?_⟩
    · cases a1 <;> simp
    · by_cases h : pn = 0
      · simp [h]
      · simp [h]
    · cases mf <;> simp
    · split_ifs <;> omega
    · split_ifs <;> omega
    · split_ifs <;> omega

/-! ## BTF file selection -/

/-- The guards before the selection: an unsupported distribution or
architecture ends in `Fatal`, a release string too short for its prefix
panics, and an error of `ReadDir` is returned as it is. -/
theorem getBestMatchedBTFFile_guards (env : BtfEnv) (hbtf : env.IsKernelSupportHasBTF = false) :
    ((env.Vendor ≠ goString "ubuntu" ∧ env.Vendor ≠ goString "centos") →
      getBestMatchedBTFFile env = .fatal)
    ∧ ((env.Vendor = goString "ubuntu" ∨ env.Vendor = goString "centos") →
        env.OSArchitecture = goString "amd64" → env.KernelArchitecture = goString "x86_64" →
        ∀ rel, sliceTo env.OSRelease (if env.Vendor = goString "centos" then 1 else 5) = some rel →
        env.ReadDir (btfFileDirOf env rel) = none →
        getBestMatchedBTFFile env = .errReadDir) := by
  constructor
  · intro h
    simp [getBestMatchedBTFFile, hbtf, h]
  · intro hvendor hos hkern rel hrel hdir
    have hv : ¬ (env.Vendor ≠ goString "ubuntu" ∧ env.Vendor ≠ goString "centos") := by
      rintro ⟨h1, h2⟩
      rcases hvendor with h | h
      · exact h1 h
      · exact h2 h
    unfold getBestMatchedBTFFile
    simp only [hbtf, Bool.false_eq_true, if_false, hv, hos, hkern, ne_eq, not_true_eq_false,
      hrel, hdir]

/-- The selection on the sample directory: an exact key, a floor key, a
release above every key, and a release below every key. -/
theorem getBestMatchedBTFFile_examples :
    getBestMatchedBTFFile (sampleBtfEnv "5.4.0-90-generic")
      = .file (goString "custom-archive/ubuntu/20.04/x86_64/5.4.0-90-generic.btf")
    ∧ getBestMatchedBTFFile (sampleBtfEnv "5.4.0-77-generic")
      = .file (goString "custom-archive/ubuntu/20.04/x86_64/5.4.0-42-generic.btf.tar.xz")
    ∧ getBestMatchedBTFFile (sampleBtfEnv "6.1.0")
      = .file (goString "custom-archive/ubuntu/20.04/x86_64/5.8.0-63-generic.btf")
    ∧ getBestMatchedBTFFile (sampleBtfEnv "5.3.0-77-generic") = .errNoBtfFile := by
  refine ⟨by decide, by decide, by decide, by decide⟩

/-- The port loop ends with `true` exactly when every entry is the decimal
text of a positive `int`. -/
theorem portLoop_true_iff (m : BpfMap) (l : List String) :
    (portLoop m l).1 = true ↔ ∀ e ∈ l, ∃ p : Int, strconvAtoi e = some p ∧ 0 < p := by
  induction l generalizing m with
  | nil => simp [portLoop]
  | cons x rest ih =>
    rw [portLoop]
    cases hx : strconvAtoi x with
    | none =>
      simp only [Bool.false_eq_true, false_iff]
      intro h
      obtain ⟨p, hp, _⟩ := h x (List.mem_cons_self _ _)
      rw [hx] at hp
      cases hp
    | some p =>
      by_cases hp : p ≤ 0
      · simp only [hp, if_true, Bool.false_eq_true, false_iff]
        intro h
        obtain ⟨q, hq, hq0⟩ := h x (List.mem_cons_self _ _)
        rw [hx] at hq
        cases hq
        omega
      · simp only [hp, if_false]
        rw [ih]
        constructor
        · intro h e he
          rcases List.mem_cons.mp he with rfl | he
          · exact ⟨p, hx, by omega⟩
          · exact h e he
        · intro h e he
          exact h e (List.mem_cons_of_mem _ he)

/-- The IP loop ends with `true` exactly when every entry parses. -/
theorem ipLoop_true_iff (f : String → Option Nat) (m : BpfMap) (l : List String) :
    (ipLoop f m l).1 = true ↔ ∀ e ∈ l, ∃ ip : Nat, f e = some ip := by
  induction l generalizing m with
  | nil => simp [ipLoop]
  | cons x rest ih =>
    rw [ipLoop]
    cases hx : f x with
    | none =>
      simp only [Bool.false_eq_true, false_iff]
      intro h
      obtain ⟨ip, hip⟩ := h x (List.mem_cons_self _ _)
      rw [hx] at hip
      cases hip
    | some ip =>
      simp only
      rw [ih]
      constructor
      · intro h e he
        rcases List.mem_cons.mp he with rfl | he
        · exact ⟨ip, hx⟩
        · exact h e he
      · intro h e he
        exact h e (List.mem_cons_of_mem _ he)

theorem remotePortStage_true_iff (cfg : FilterConfig) (m : BpfMap) :
    (remotePortStage cfg m).1 = true
      ↔ ∀ e ∈ cfg.RemotePorts, ∃ p : Int, strconvAtoi e = some p ∧ 0 < p := by
  unfold remotePortStage
  by_cases h : cfg.RemotePorts.length > 0
  · simp only [h, if_true]
    exact portLoop_true_iff _ _
  · have hnil : cfg.RemotePorts = [] := List.length_eq_zero.mp (by omega)
    simp [hnil]

theorem localPortStage_true_iff (cfg : FilterConfig) (m : BpfMap) :
    (localPortStage cfg m).1 = true
      ↔ ∀ e ∈ cfg.LocalPorts, ∃ p : Int, strconvAtoi e = some p ∧ 0 < p := by
  unfold localPortStage
  by_cases h : cfg.LocalPorts.length > 0
  · simp only [h, if_true]
    exact portLoop_true_iff _ _
  · have hnil : cfg.LocalPorts = [] := List.length_eq_zero.mp (by omega)
    simp [hnil]

theorem remoteIpStage_true_iff (f : String → Option Nat) (cfg : FilterConfig) (m : BpfMap) :
    (remoteIpStage f cfg m).1 = true ↔ ∀ e ∈ cfg.RemoteIps, ∃ ip : Nat, f e = some ip := by
  unfold remoteIpStage
  by_cases h : cfg.RemoteIps.length > 0
  · simp only [h, if_true]
    exact ipLoop_true_iff _ _ _
  · have hnil : cfg.RemoteIps = [] := List.length_eq_zero.mp (by omega)
    simp [hnil]

/-- The result of `setAndValidateParameters` by the outcome of its three
blocks: a block that fails ends the call, and the maps of the later blocks are
the ones the call started with. -/
theorem setAndValidateParameters_stages (f : String → Option Nat) (cfg : FilterConfig)
    (maps : FilterMaps) :
    ((remotePortStage cfg maps.EnabledRemotePortMap).1 = false →
      (setAndValidateParameters f cfg maps).1 = false
      ∧ (setAndValidateParameters f cfg maps).2.EnabledRemoteIpv4Map = maps.EnabledRemoteIpv4Map
      ∧ (setAndValidateParameters f cfg maps).2.EnabledLocalPortMap = maps.EnabledLocalPortMap)
    ∧ ((remotePortStage cfg maps.EnabledRemotePortMap).1 = true →
        (remoteIpStage f cfg maps.EnabledRemoteIpv4Map).1 = false →
        (setAndValidateParameters f cfg maps).1 = false
        ∧ (setAndValidateParameters f cfg maps).2.EnabledRemoteIpv4Map
            = (remoteIpStage f cfg maps.EnabledRemoteIpv4Map).2
        ∧ (setAndValidateParameters f cfg maps).2.EnabledLocalPortMap = maps.EnabledLocalPortMap)
    ∧ ((remotePortStage cfg maps.EnabledRemotePortMap).1 = true →
        (remoteIpStage f cfg maps.EnabledRemoteIpv4Map).1 = true →
        (setAndValidateParameters f cfg maps).1 = (localPortStage cfg maps.EnabledLocalPortMap).1
        ∧ (setAndValidateParameters f cfg maps).2.EnabledLocalPortMap
            = (localPortStage cfg maps.EnabledLocalPortMap).2) := by
  refine ⟨fun h1 => ?_, fun h1 h2 => ?_, fun h1 h2 => ?_⟩
  · unfold setAndValidateParameters
    simp [h1]
  · unfold setAndValidateParameters
    simp [h1, h2]
  · unfold setAndValidateParameters
    simp only [h1, h2, Bool.true_eq_false, if_false]
    cases h3 : (localPortStage cfg maps.EnabledLocalPortMap).1 <;> simp

/-- C10 (amended). Starting from empty maps: when the call returns `true`,
key `1` is in each of the three filter maps exactly when its list is not
empty; on every return a map whose list is empty is left empty and key `1` is
in `EnabledRemotePortMap` exactly when the remote-port list is not empty. The
call returns `false` exactly when a list holds an invalid entry, and then the
lists after that list are not processed: an invalid remote port leaves the
remote-IP and local-port maps empty, and an invalid remote IP after valid
remote ports leaves the local-port map empty. -/
theorem sentinel_key_one (ipv4ToUint32 : String → Option Nat) (cfg : FilterConfig) :
    ((setAndValidateParameters ipv4ToUint32 cfg FilterMaps.empty).1 = true →
      ((setAndValidateParameters ipv4ToUint32 cfg FilterMaps.empty).2.EnabledRemotePortMap.has 1
          = true ↔ cfg.RemotePorts ≠ [])
      ∧ ((setAndValidateParameters ipv4ToUint32 cfg FilterMaps.empty).2.EnabledRemoteIpv4Map.has 1
          = true ↔ cfg.RemoteIps ≠ [])
      ∧ ((setAndValidateParameters ipv4ToUint32 cfg FilterMaps.empty).2.EnabledLocalPortMap.has 1
          = true ↔ cfg.LocalPorts ≠ []))
    ∧ (cfg.RemotePorts = [] →
        (setAndValidateParameters ipv4ToUint32 cfg FilterMaps.empty).2.EnabledRemotePortMap = [])
    ∧ (cfg.RemoteIps = [] →
        (setAndValidateParameters ipv4ToUint32 cfg FilterMaps.empty).2.EnabledRemoteIpv4Map = [])
    ∧ (cfg.LocalPorts = [] →
        (setAndValidateParameters ipv4ToUint32 cfg FilterMaps.empty).2.EnabledLocalPortMap = [])
    ∧ ((setAndValidateParameters ipv4ToUint32 cfg FilterMaps.empty).2.EnabledRemotePortMap.has 1
          = true ↔ cfg.RemotePorts ≠ [])
    ∧ ((setAndValidateParameters ipv4ToUint32 cfg FilterMaps.empty).1 = true
        ↔ (∀ e ∈ cfg.RemotePorts, ∃ p : Int, strconvAtoi e = some p ∧ 0 < p)
          ∧ (∀ e ∈ cfg.RemoteIps, ∃ ip : Nat, ipv4ToUint32 e = some ip)
          ∧ (∀ e ∈ cfg.LocalPorts, ∃ p : Int, strconvAtoi e = some p ∧ 0 < p))
    ∧ (¬ (∀ e ∈ cfg.RemotePorts, ∃ p : Int, strconvAtoi e = some p ∧ 0 < p) →
        (setAndValidateParameters ipv4ToUint32 cfg FilterMaps.empty).1 = false
        ∧ (setAndValidateParameters ipv4ToUint32 cfg FilterMaps.empty).2.EnabledRemoteIpv4Map = []
        ∧ (setAndValidateParameters ipv4ToUint32 cfg FilterMaps.empty).2.EnabledLocalPortMap = [])
    ∧ ((∀ e ∈ cfg.RemotePorts, ∃ p : Int, strconvAtoi e = some p ∧ 0 < p) →
        ¬ (∀ e ∈ cfg.RemoteIps, ∃ ip : Nat, ipv4ToUint32 e = some ip) →
        (setAndValidateParameters ipv4ToUint32 cfg FilterMaps.empty).1 = false
        ∧ (setAndValidateParameters ipv4ToUint32 cfg FilterMaps.empty).2.EnabledLocalPortMap
            = []) := by
  have hbase := sentinel_key_presence ipv4ToUint32 cfg
  have hs := setAndValidateParameters_stages ipv4ToUint32 cfg FilterMaps.empty
  have i1 := remotePortStage_true_iff cfg FilterMaps.empty.EnabledRemotePortMap
  have i2 := remoteIpStage_true_iff ipv4ToUint32 cfg FilterMaps.empty.EnabledRemoteIpv4Map
  have i3 := localPortStage_true_iff cfg FilterMaps.empty.EnabledLocalPortMap
  refine ⟨hbase.1, hbase.2.1, hbase.2.2.1, hbase.2.2.2.1, hbase.2.2.2.2, ?_, ?_, ?_⟩
  · cases h1 : (remotePortStage cfg FilterMaps.empty.EnabledRemotePortMap).1 with
    | false =>
      rw [(hs.1 h1).1]
      simp only [Bool.false_eq_true, false_iff]
      rintro ⟨h, _, _⟩
      have := i1.mpr h
      rw [h1] at this
      cases this
    | true =>
      cases h2 : (remoteIpStage ipv4ToUint32 cfg FilterMaps.empty.EnabledRemoteIpv4Map).1 with
      | false =>
        rw [(hs.2.1 h1 h2).1]
        simp only [Bool.false_eq_true, false_iff]
        rintro ⟨_, h, _⟩
        have := i2.mpr h
        rw [h2] at this
        cases this
      | true =>
        rw [(hs.2.2 h1 h2).1, i3]
        exact ⟨fun h => ⟨i1.mp h1, i2.mp h2, h⟩, fun h => h.2.2⟩
  · intro hbad
    have h1 : (remotePortStage cfg FilterMaps.empty.EnabledRemotePortMap).1 = false := by
      cases hx : (remotePortStage cfg FilterMaps.empty.EnabledRemotePortMap).1 with
      | false => rfl
      | true => exact absurd (i1.mp hx) hbad
    exact hs.1 h1
  · intro hgood hbad
    have h1 := i1.mpr hgood
    have h2 : (remoteIpStage ipv4ToUint32 cfg FilterMaps.empty.EnabledRemoteIpv4Map).1 = false := by
      cases hx : (remoteIpStage ipv4ToUint32 cfg FilterMaps.empty.EnabledRemoteIpv4Map).1 with
      | false => rfl
      | true => exact absurd (i2.mp hx) hbad
    exact ⟨(hs.2.1 h1 h2).1, (hs.2.1 h1 h2).2.2⟩

/-- C10 (amended) at a configuration with one remote port, one remote IP and
no local port, and at one whose remote IP is invalid. -/
theorem sentinel_key_one_witness :
    (((setAndValidateParameters (fun _ => some 16909060)
        { FilterPid := 0, RemotePorts := ["443"], RemoteIps := ["1.2.3.4"], LocalPorts := [] }
        FilterMaps.empty).2.EnabledRemotePortMap.has 1 = true ↔ (["443"] : List String) ≠ [])
      ∧ ((setAndValidateParameters (fun _ => some 16909060)
        { FilterPid := 0, RemotePorts := ["443"], RemoteIps := ["1.2.3.4"], LocalPorts := [] }
        FilterMaps.empty).2.EnabledRemoteIpv4Map.has 1 = true ↔ (["1.2.3.4"] : List String) ≠ [])
      ∧ ((setAndValidateParameters (fun _ => some 16909060)
        { FilterPid := 0, RemotePorts := ["443"], RemoteIps := ["1.2.3.4"], LocalPorts := [] }
        FilterMaps.empty).2.EnabledLocalPortMap.has 1 = true ↔ ([] : List String) ≠ []))
    ∧ ((setAndValidateParameters (fun _ => none)
        { FilterPid := 0, RemotePorts := ["443"], RemoteIps := ["1.2.3"], LocalPorts := ["80"] }
        FilterMaps.empty).1 = false
      ∧ (setAndValidateParameters (fun _ => none)
        { FilterPid := 0, RemotePorts := ["443"], RemoteIps := ["1.2.3"], LocalPorts := ["80"] }
        FilterMaps.empty).2.EnabledLocalPortMap = []) :=
  ⟨(sentinel_key_one (fun _ => some 16909060)
      { FilterPid := 0, RemotePorts := ["443"], RemoteIps := ["1.2.3.4"], LocalPorts := [] }).1
      (by decide),
   (sentinel_key_one (fun _ => none)
      { FilterPid := 0, RemotePorts := ["443"], RemoteIps := ["1.2.3"], LocalPorts := ["80"] }
      ).2.2.2.2.2.2.2
      (fun e he => ⟨443, by simp at he; subst he; decide, by decide⟩)
      (fun h => by
        obtain ⟨ip, hip⟩ := h "1.2.3" (by simp)
        cases hip)⟩


/-! ## The loop over the instrumentation points -/

theorem attachInstrumentFunctions_append (attach : AttachCall → Option Link)
    (before rest : List (List InstrumentFunction)) (st st1 : AttachState)
    (h : attachInstrumentFunctions attach before st = (.done, st1)) :
    attachInstrumentFunctions attach (before ++ rest) st
      = attachInstrumentFunctions attach rest st1 := by
  induction before generalizing st with
  | nil =>
    simp only [attachInstrumentFunctions, Prod.mk.injEq, true_and] at h
    subst h
    rfl
  | cons functions before ih =>
    simp only [List.cons_append]
    rw [attachInstrumentFunctions] at h ⊢
    cases hr : attachFallbacks attach functions 0 functions st with
    | mk e s =>
      rw [hr] at h
      cases e with
      | done => exact ih s h
      | fatal => simp at h
      | panic => simp at h

/-- C11. When the loop of `attachBpfProgs` over the instrumentation points
reaches a point (the points before it are done), it makes the attach calls of
that point's fallback list in list order; at the first call that succeeds it
appends that one link, tries no function after it and goes on with the next
point; failures before it are passed over. When the list is not empty and
every call fails, it has tried them all and ends in `Fatalf` with the link list
unchanged, and no later point is tried. With no point left the loop is done.
The call made for a function is `bpf.Kprobe`, `bpf.Tracepoint` or
`bpf.Kretprobe` by its kind. -/
theorem attach_ordered_fallbacks (attach : AttachCall → Option Link)
    (before after : List (List InstrumentFunction)) (st st1 : AttachState)
    (hbefore : attachInstrumentFunctions attach before st = (.done, st1)) :
    (∀ (pre : List InstrumentFunction) (f : InstrumentFunction) (post : List InstrumentFunction)
        (calls : List AttachCall) (c : AttachCall) (l : Link),
      pre.map attachCallOf = calls.map some → (∀ c2 ∈ calls, attach c2 = none) →
      attachCallOf f = some c → attach c = some l →
      attachInstrumentFunctions attach (before ++ (pre ++ f :: post) :: after) st
        = attachInstrumentFunctions attach after
            { linkList := st1.linkList ++ [l], tried := st1.tried ++ calls ++ [c] })
    ∧ (∀ (functions : List InstrumentFunction) (calls : List AttachCall),
      functions ≠ [] → functions.map attachCallOf = calls.map some →
      (∀ c ∈ calls, attach c = none) →
      attachInstrumentFunctions attach (before ++ functions :: after) st
        = (.fatal, { linkList := st1.linkList, tried := st1.tried ++ calls }))
    ∧ attachInstrumentFunctions attach (before ++ []) st = (.done, st1)
    ∧ (∀ f : InstrumentFunction,
        attachCallOf f
          = if f.IsKprobe = true then some (.Kprobe f)
            else if f.IsTracepoint = true then some (.Tracepoint f)
            else if f.IsKRetprobe = true then some (.Kretprobe f)
            else none) := by
  refine ⟨?_, ?_, ?_, fun f => rfl⟩
  · intro pre f post calls c l hcalls hfail hf hok
    rw [attachInstrumentFunctions_append attach before _ st st1 hbefore, attachInstrumentFunctions,
      (attachFallbacks_ordered attach st1).1 pre f post calls c l hcalls hfail hf hok]
  · intro functions calls hne hcalls hfail
    rw [attachInstrumentFunctions_append attach before _ st st1 hbefore, attachInstrumentFunctions,
      (attachFallbacks_ordered attach st1).2 functions calls hne hcalls hfail]
  · rw [List.append_nil]
    exact hbefore

/-- C11 at three instrumentation points on a kernel where only tracepoints
attach: the second point attaches its tracepoint after its kprobe failed, the
third has no tracepoint and is fatal. -/
theorem attach_ordered_fallbacks_witness :
    attachInstrumentFunctions attachOnlyTracepoints
        ([[sampleTracepoint]]
          ++ ([sampleKprobe] ++ sampleTracepoint :: [sampleKretprobe]) :: [[sampleKprobe]])
        { linkList := [1], tried := [] }
      = attachInstrumentFunctions attachOnlyTracepoints [[sampleKprobe]]
          { linkList := [1, 7] ++ [7],
            tried := [.Tracepoint sampleTracepoint] ++ [.Kprobe sampleKprobe]
              ++ [.Tracepoint sampleTracepoint] }
    ∧ attachInstrumentFunctions attachOnlyTracepoints
        ([[sampleTracepoint]] ++ [sampleKprobe, sampleKretprobe] :: [[sampleTracepoint]])
        { linkList := [1], tried := [] }
      = (.fatal, { linkList := [1, 7],
                   tried := [.Tracepoint sampleTracepoint]
                     ++ [.Kprobe sampleKprobe, .Kretprobe sampleKretprobe] }) :=
  ⟨(attach_ordered_fallbacks attachOnlyTracepoints [[sampleTracepoint]] [[sampleKprobe]]
      { linkList := [1], tried := [] }
      { linkList := [1, 7], tried := [.Tracepoint sampleTracepoint] } (by decide)).1
      [sampleKprobe] sampleTracepoint [sampleKretprobe] [.Kprobe sampleKprobe]
      (.Tracepoint sampleTracepoint) 7 (by decide) (by decide) (by decide) (by decide),
   (attach_ordered_fallbacks attachOnlyTracepoints [[sampleTracepoint]] [[sampleTracepoint]]
      { linkList := [1], tried := [] }
      { linkList := [1, 7], tried := [.Tracepoint sampleTracepoint] } (by decide)).2.1
      [sampleKprobe, sampleKretprobe] [.Kprobe sampleKprobe, .Kretprobe sampleKretprobe]
      (by decide) (by decide) (by decide)⟩


/-! ## The keying and the guards of `getBestMatchedBTFFile` -/

end Kyanos
